import Mathlib

/-!
# easyws: the handshake negotiator and `NetHandler.OnReceive`

A shallow embedding of `easyws.go`, `errors.go`, `handler.go` and
`httphead/util_purego.go`.

Conventions of the embedding.

* A Go `[]byte` is a `List Nat` (every element stands for one byte); a `nil`
  slice and an empty slice are both `[]`.
* A Go `error` is `Option Error`; `none` is `nil`.
* A `panic` is an explicit outcome (`Outcome.panic`).
* Functions of the package that `easyws.go` calls but that are not part of
  the sources (`httpParseRequestLine`, `httpParseHeaderLine`,
  `httpWriteResponseError`, `WriteHeader`, ...) are fields of the structure
  `Env`; the general theorems about `Upgrade` and `OnReceive` hold for an
  arbitrary `Env`, and the evaluations on concrete requests use the instance
  `specEnv`.
* The transport's `IInputStream` is an interface of another module. It is
  represented by what it answers: the lines `readLine` delivers, the answer
  of `ReadHeader`, and the slice `Begin(nil)` lends.
* Hooks are pure functions; the hooks `Upgrade` calls directly are recorded
  in a call log so that "the hook is not called" can be stated.
-/

namespace easyws

/-- A Go byte slice or byte string. -/
abbrev Bytes := List Nat

/-! ## httphead/util_purego.go -/

/-- `httphead.StrToBytes`: the bytes of a string (the literals of this
development are ASCII, where a character is one byte). -/
def httphead.StrToBytes (str : String) : Bytes := str.toList.map Char.toNat

/-- `strings.Replace(s, old, "", -1)` for a one-byte `old`. -/
def removeAll (old : Nat) (s : Bytes) : Bytes := s.filter (fun b => b != old)

/-- `httphead.Trim`: removes every line feed, carriage return and space. -/
def httphead.Trim (s : Bytes) : Bytes :=
  let s := removeAll 10 s
  let s := removeAll 13 s
  let s := removeAll 32 s
  s

/-- `httphead.Option`: a header option, a name with its parameters. -/
structure httphead.Option where
  name : Bytes
  params : List (Bytes × Bytes)
deriving DecidableEq, Repr

/-! ## errors.go -/

/-- `HandshakeHeader`: an opaque writer of response headers, represented by
the bytes its `WriteTo` emits. -/
abbrev HandshakeHeader := Bytes

/-- `HandshakeHeaderString(s)`: a header writer emitting the string `s`. -/
def HandshakeHeaderString (s : String) : HandshakeHeader := httphead.StrToBytes s

/-- `ConnectionRejectedError`. -/
structure ConnectionRejectedError where
  reason : String
  code : Int
  header : Option HandshakeHeader
deriving DecidableEq, Repr

/-- A Go `error` value that is not nil: a `*ConnectionRejectedError`, or an
error of any other dynamic type. -/
inductive Error where
  | rejected (rej : ConnectionRejectedError)
  | other (msg : String)
deriving DecidableEq, Repr

/-- `RejectOption`. -/
abbrev RejectOption := ConnectionRejectedError → ConnectionRejectedError

/-- `RejectionReason`. -/
def RejectionReason (reason : String) : RejectOption :=
  fun err => { err with reason := reason }

/-- `RejectionStatus`. -/
def RejectionStatus (code : Int) : RejectOption :=
  fun err => { err with code := code }

/-- `RejectionHeader`. -/
def RejectionHeader (h : HandshakeHeader) : RejectOption :=
  fun err => { err with header := some h }

/-- `RejectConnectionError`: applies the options, in order, to a zero
`ConnectionRejectedError`. -/
def RejectConnectionError (options : List RejectOption) : Error :=
  Error.rejected (options.foldl (fun err opt => opt err) ⟨"", 0, none⟩)

/-- `(*ConnectionRejectedError).StatusCode`. -/
def ConnectionRejectedError.StatusCode (r : ConnectionRejectedError) : Int := r.code

/-- The status codes of `net/http` the package uses. -/
def StatusHTTPVersionNotSupported : Int := 505
def StatusMethodNotAllowed : Int := 405
def StatusBadRequest : Int := 400
def StatusUpgradeRequired : Int := 426
def StatusInternalServerError : Int := 500

/-- `http.MethodGet`. -/
def MethodGet : String := "GET"

/-- Modelled from the spec: the header-name constants (`headerHost`, ...,
`headerSecExtensions`) and their `...Canonical` forms are declared outside the
sources; the spec names the request headers consumed as Host, Upgrade,
Connection, Sec-WebSocket-Version, Sec-WebSocket-Key, Sec-WebSocket-Protocol
and Sec-WebSocket-Extensions. -/
def headerHost : String := "Host"
def headerUpgrade : String := "Upgrade"
def headerConnection : String := "Connection"
def headerSecVersion : String := "Sec-WebSocket-Version"
def headerSecKey : String := "Sec-WebSocket-Key"
def headerSecProtocol : String := "Sec-WebSocket-Protocol"
def headerSecExtensions : String := "Sec-WebSocket-Extensions"
def headerSecAccept : String := "Sec-WebSocket-Accept"
def headerHostCanonical : String := headerHost
def headerUpgradeCanonical : String := headerUpgrade
def headerConnectionCanonical : String := headerConnection
def headerSecVersionCanonical : String := headerSecVersion
def headerSecKeyCanonical : String := headerSecKey
def headerSecProtocolCanonical : String := headerSecProtocol
def headerSecExtensionsCanonical : String := headerSecExtensions

/-- Modelled from the spec: the expected header values, declared outside the
sources: Upgrade must equal "websocket", Connection must equal "Upgrade",
Sec-WebSocket-Version must equal "13". -/
def specHeaderValueUpgrade : Bytes := httphead.StrToBytes "websocket"
def specHeaderValueConnection : Bytes := httphead.StrToBytes "Upgrade"
def specHeaderValueSecVersion : Bytes := httphead.StrToBytes "13"

/-- Modelled from the spec: `nonceSize`, declared outside the sources, is the
length of the `Sec-WebSocket-Key` text, the base64 form of a 16-byte nonce
(as in `dGhlIHNhbXBsZSBub25jZQ==`): 24 bytes. -/
def nonceSize : Nat := 24

/-- `fmt.Sprintf("handshake error: bad %q header", name)` for a name without
characters that `%q` escapes. -/
def badHeaderReason (name : String) : String :=
  "handshake error: bad " ++ String.singleton (Char.ofNat 34) ++ name ++
    String.singleton (Char.ofNat 34) ++ " header"

def ErrHandshakeBadProtocol : Error :=
  RejectConnectionError [
    RejectionStatus StatusHTTPVersionNotSupported,
    RejectionReason "handshake error: bad HTTP protocol version"]

def ErrHandshakeBadMethod : Error :=
  RejectConnectionError [
    RejectionStatus StatusMethodNotAllowed,
    RejectionReason "handshake error: bad HTTP request method"]

def ErrHandshakeBadHost : Error :=
  RejectConnectionError [
    RejectionStatus StatusBadRequest,
    RejectionReason (badHeaderReason headerHost)]

def ErrHandshakeBadUpgrade : Error :=
  RejectConnectionError [
    RejectionStatus StatusBadRequest,
    RejectionReason (badHeaderReason headerUpgrade)]

def ErrHandshakeBadConnection : Error :=
  RejectConnectionError [
    RejectionStatus StatusBadRequest,
    RejectionReason (badHeaderReason headerConnection)]

def ErrHandshakeBadSecAccept : Error :=
  RejectConnectionError [
    RejectionStatus StatusBadRequest,
    RejectionReason (badHeaderReason headerSecAccept)]

def ErrHandshakeBadSecKey : Error :=
  RejectConnectionError [
    RejectionStatus StatusBadRequest,
    RejectionReason (badHeaderReason headerSecKey)]

def ErrHandshakeBadSecVersion : Error :=
  RejectConnectionError [
    RejectionStatus StatusBadRequest,
    RejectionReason (badHeaderReason headerSecVersion)]

/-- `ErrMalformedRequest`. -/
def ErrMalformedRequest : Error :=
  RejectConnectionError [
    RejectionStatus StatusBadRequest,
    RejectionReason "malformed HTTP request"]

/-- `ErrHandshakeUpgradeRequired`. -/
def ErrHandshakeUpgradeRequired : Error :=
  RejectConnectionError [
    RejectionStatus StatusUpgradeRequired,
    RejectionHeader (HandshakeHeaderString (headerSecVersion ++ ": 13\r\n")),
    RejectionReason (badHeaderReason headerSecVersion)]

/-! ## The frame model -/

/-- Modelled from the spec: `OpCode`, declared outside the sources, is the
enumeration Continuation, Text, Binary, Close, Ping, Pong; the zero value of
the Go type is the continuation opcode. -/
inductive OpCode where
  | OpContinuation
  | OpText
  | OpBinary
  | OpClose
  | OpPing
  | OpPong
deriving DecidableEq, Repr

/-- Modelled from the spec: `Header`, declared outside the sources: fin, the
3-bit rsv field, the opcode, the masked flag, the 4 mask bytes and the
length. `OnReceive` compares `Length` with an `int64`, so it is an integer
here. -/
structure Header where
  Fin : Bool
  Rsv : Nat
  OpCode : OpCode
  Masked : Bool
  Mask : Nat × Nat × Nat × Nat
  Length : Int
deriving DecidableEq, Repr

/-- Modelled from the spec: `Frame`, declared outside the sources: a header
and a payload. -/
structure Frame where
  Header : Header
  Payload : Bytes
deriving DecidableEq, Repr

/-- The zero value of `Frame` (`var f Frame`). -/
def Frame.zero : Frame :=
  ⟨⟨false, 0, OpCode.OpContinuation, false, (0, 0, 0, 0), 0⟩, []⟩

/-- Modelled from the spec: the frame constructors, declared outside the
sources: "each producing fin=true, the corresponding opcode, masked=false,
length = payload.length". -/
def NewFrame (op : OpCode) (p : Bytes) : Frame :=
  ⟨⟨true, 0, op, false, (0, 0, 0, 0), (p.length : Int)⟩, p⟩

/-- Modelled from the spec: the Text constructor (see `NewFrame`). -/
def NewTextFrame (p : Bytes) : Frame := NewFrame OpCode.OpText p

/-- Modelled from the spec: the Binary constructor (see `NewFrame`). -/
def NewBinaryFrame (p : Bytes) : Frame := NewFrame OpCode.OpBinary p

/-- Modelled from the spec: the Ping constructor (see `NewFrame`). -/
def NewPingFrame (p : Bytes) : Frame := NewFrame OpCode.OpPing p

/-- Modelled from the spec: the Pong constructor (see `NewFrame`). -/
def NewPongFrame (p : Bytes) : Frame := NewFrame OpCode.OpPong p

/-- Modelled from the spec: the Close constructor (see `NewFrame`). -/
def NewCloseFrame (p : Bytes) : Frame := NewFrame OpCode.OpClose p

/-- Byte `i mod 4` of a mask. -/
def maskByte (mask : Nat × Nat × Nat × Nat) (i : Nat) : Nat :=
  match i % 4 with
  | 0 => mask.1
  | 1 => mask.2.1
  | 2 => mask.2.2.1
  | _ => mask.2.2.2

/-- The cipher on a buffer whose first byte has index `offset`. -/
def cipherFrom (mask : Nat × Nat × Nat × Nat) : Nat → Bytes → Bytes
  | _, [] => []
  | offset, b :: rest => (b ^^^ maskByte mask offset) :: cipherFrom mask (offset + 1) rest

/-- Modelled from the spec: `Cipher`, declared outside the sources:
`buffer[i] ^= mask[(offset+i) mod 4]`. -/
def Cipher (payload : Bytes) (mask : Nat × Nat × Nat × Nat) (offset : Nat) : Bytes :=
  cipherFrom mask offset payload

/-! ## The handshake types -/

/-- `Handshake`: the result of a negotiation. -/
structure Handshake where
  Protocol : String
  Extensions : List httphead.Option
deriving DecidableEq, Repr

/-- The zero value of `Handshake`. -/
def Handshake.zero : Handshake := ⟨"", []⟩

/-- The parsed request line (`httpParseRequestLine` returns it). -/
structure httpRequestLine where
  method : Bytes
  uri : Bytes
  major : Int
  minor : Int
deriving DecidableEq, Repr

/-- `handshakeHeader`: `[2]HandshakeHeader`; `none` is a nil entry. -/
structure handshakeHeader where
  h0 : Option HandshakeHeader
  h1 : Option HandshakeHeader
deriving DecidableEq, Repr

/-- `handshakeHeader.WriteTo`: writes the entries that are not nil, in order;
the value is what gets written. -/
def handshakeHeader.WriteTo (hs : handshakeHeader) : Bytes :=
  (match hs.h0 with | some h => h | none => []) ++
  (match hs.h1 with | some h => h | none => [])

/-- `Upgrader`: the options of an upgrade; `none` is a nil callback. -/
structure Upgrader where
  ReadBufferSize : Int
  WriteBufferSize : Int
  Protocol : Option (Bytes → Bool)
  ProtocolCustom : Option (Bytes → String × Bool)
  Extension : Option (httphead.Option → Bool)
  ExtensionCustom :
    Option (Bytes → List httphead.Option → List httphead.Option × Bool)
  Negotiate : Option (httphead.Option → httphead.Option × Option Error)
  Header : Option HandshakeHeader
  OnRequest : Option (Bytes → Option Error)
  OnHost : Option (Bytes → Option Error)
  OnHeader : Option (Bytes → Bytes → Option Error)
  OnBeforeUpgrade : Option (Option HandshakeHeader × Option Error)

/-- The zero value `Upgrader{}`. -/
def Upgrader.zero : Upgrader :=
  ⟨0, 0, none, none, none, none, none, none, none, none, none, none⟩

/-- The functions of the package that `easyws.go` calls and that are declared
outside the sources, and the part of the Go library the comparison of the
Upgrade value needs. -/
structure Env where
  /-- `httpParseRequestLine(line) (req, err)`. -/
  httpParseRequestLine : Bytes → Except Error httpRequestLine
  /-- `httpParseHeaderLine(line) (k, v, ok)`; `none` is `ok = false`. -/
  httpParseHeaderLine : Bytes → Option (Bytes × Bytes)
  /-- `btsSelectProtocol(h, check) (string, bool)`. -/
  btsSelectProtocol : Bytes → (Bytes → Bool) → String × Bool
  /-- `negotiateExtensions(h, dest, f) ([]httphead.Option, error)`. -/
  negotiateExtensions : Bytes → List httphead.Option →
    (httphead.Option → httphead.Option × Option Error) →
    List httphead.Option × Option Error
  /-- `btsSelectExtensions(h, selected, check) ([]httphead.Option, bool)`. -/
  btsSelectExtensions : Bytes → List httphead.Option → (httphead.Option → Bool) →
    List httphead.Option × Bool
  /-- `httpWriteResponseError(&buffer, err, code, header.WriteTo)`: the bytes
  written to the empty buffer, given the error, the status code and the bytes
  the header writer emits. -/
  httpWriteResponseError : Error → Int → Bytes → Bytes
  /-- `httpWriteResponseUpgrade(&buffer, nonce, hs, header.WriteTo)`. -/
  httpWriteResponseUpgrade : Bytes → Handshake → Bytes → Bytes
  /-- `WriteHeader(h) ([]byte, error)`. -/
  WriteHeader : Header → Except Error Bytes
  /-- The part of `bytes.EqualFold` after its ASCII fast path: the comparison
  of the two remainders under Unicode simple case folding. -/
  unicodeFold : Bytes → Bytes → Bool

/-- `bytes.EqualFold` of the Go library: the ASCII fast path, which hands the
remainders to the Unicode comparison at the first byte that is not ASCII
(`sr|tr >= utf8.RuneSelf`, that is, one of the two bytes is at least 128). -/
def EqualFold (unicodeFold : Bytes → Bytes → Bool) : Bytes → Bytes → Bool
  | [], [] => true
  | [], _ :: _ => false
  | _ :: _, [] => false
  | sr :: s, tr :: t =>
    if 128 ≤ sr ∨ 128 ≤ tr then unicodeFold (sr :: s) (tr :: t)
    else if tr = sr then EqualFold unicodeFold s t
    else if 65 ≤ min sr tr ∧ min sr tr ≤ 90 ∧ max sr tr = min sr tr + 32 then
      EqualFold unicodeFold s t
    else false

/-- `copy(dst, src)`: the new contents of `dst`. -/
def copy (dst src : Bytes) : Bytes :=
  src.take dst.length ++ dst.drop src.length

/-- A Go slice as `Begin` lends it: its elements, and the elements of its
backing array between its length and its capacity. -/
structure Slice where
  elems : Bytes
  spare : Bytes
deriving DecidableEq, Repr

/-- `len(s)`. -/
def Slice.len (s : Slice) : Nat := s.elems.length

/-- `cap(s)`. -/
def Slice.cap (s : Slice) : Nat := s.elems.length + s.spare.length

/-- The transport's input stream, by what it answers: `lines` are the lines
that successive `readLine` calls deliver; `readErr` is the error `readLine`
gives when no line is left; `header` is the answer of `ReadHeader`;
`borrowed` is the slice `Begin(nil)` lends after that; `returned` records the
argument of the last `End` call (`none`: `End` was not called). -/
structure InputStream where
  lines : List Bytes
  readErr : Error
  header : Except Error Header
  borrowed : Slice
  returned : Option Bytes

/-- The hooks `Upgrade` calls directly, with their arguments. -/
inductive Call where
  | OnRequest (uri : Bytes)
  | OnHost (host : Bytes)
  | OnHeader (key value : Bytes)
  | ProtocolCustom (value : Bytes)
  | ExtensionCustom (value : Bytes)
  | OnBeforeUpgrade
deriving DecidableEq, Repr

/-- A call that returns a value or panics. -/
inductive Outcome (α : Type) where
  | panic (msg : String)
  | ret (a : α)
deriving DecidableEq, Repr

/-! ## Upgrader.Upgrade -/

def headerSeenHost : Nat := 1
def headerSeenUpgrade : Nat := 2
def headerSeenConnection : Nat := 4
def headerSeenSecVersion : Nat := 8
def headerSeenSecKey : Nat := 16

/-- `headerSeenAll`. -/
def headerSeenAll : Nat :=
  0 ||| headerSeenHost ||| headerSeenUpgrade ||| headerSeenConnection |||
    headerSeenSecVersion ||| headerSeenSecKey

/-- The variables of `Upgrade` that the header loop updates, and the log of
hook calls. -/
structure LoopState where
  err : Option Error
  headerSeen : Nat
  nonce : Bytes
  hs : Handshake
  calls : List Call
deriving DecidableEq, Repr

/-- `case headerHostCanonical` (lines 380-384). -/
def hostCase (u : Upgrader) (st : LoopState) (v : Bytes) : LoopState :=
  let st := { st with headerSeen := st.headerSeen ||| headerSeenHost }
  match u.OnHost with
  | some onHost => { st with err := onHost v, calls := st.calls ++ [Call.OnHost v] }
  | none => st

/-- `case headerUpgradeCanonical` (lines 386-390). -/
def upgradeCase (env : Env) (st : LoopState) (v : Bytes) : LoopState :=
  let st := { st with headerSeen := st.headerSeen ||| headerSeenUpgrade }
  if !(v == specHeaderValueUpgrade) && !(EqualFold env.unicodeFold v specHeaderValueUpgrade) then
    { st with err := some ErrHandshakeBadUpgrade }
  else st

/-- `case headerConnectionCanonical` (lines 392-396). -/
def connectionCase (st : LoopState) (v : Bytes) : LoopState :=
  let st := { st with headerSeen := st.headerSeen ||| headerSeenConnection }
  if !(v == specHeaderValueConnection) then
    { st with err := some ErrHandshakeBadConnection }
  else st

/-- `case headerSecVersionCanonical` (lines 398-402). -/
def secVersionCase (st : LoopState) (v : Bytes) : LoopState :=
  let st := { st with headerSeen := st.headerSeen ||| headerSeenSecVersion }
  if !(v == specHeaderValueSecVersion) then
    { st with err := some ErrHandshakeUpgradeRequired }
  else st

/-- `case headerSecKeyCanonical` (lines 404-410). -/
def secKeyCase (st : LoopState) (v : Bytes) : LoopState :=
  let st := { st with headerSeen := st.headerSeen ||| headerSeenSecKey }
  if v.length ≠ nonceSize then
    { st with err := some ErrHandshakeBadSecKey }
  else { st with nonce := copy st.nonce v }

/-- `case headerSecProtocolCanonical` (lines 412-423). -/
def secProtocolCase (env : Env) (u : Upgrader) (st : LoopState) (v : Bytes) : LoopState :=
  if st.hs.Protocol = "" ∧ (u.ProtocolCustom.isSome ∨ u.Protocol.isSome) then
    match u.ProtocolCustom, u.Protocol with
    | some custom, _ =>
      let r := custom v
      let st := { st with hs := { st.hs with Protocol := r.1 },
                          calls := st.calls ++ [Call.ProtocolCustom v] }
      if !r.2 then { st with err := some ErrMalformedRequest } else st
    | none, some check =>
      let r := env.btsSelectProtocol v check
      let st := { st with hs := { st.hs with Protocol := r.1 } }
      if !r.2 then { st with err := some ErrMalformedRequest } else st
    | none, none => st
  else st

/-- `case headerSecExtensionsCanonical` (lines 425-440). -/
def secExtensionsCase (env : Env) (u : Upgrader) (st : LoopState) (v : Bytes) : LoopState :=
  let st :=
    match st.err, u.Negotiate with
    | none, some f =>
      let r := env.negotiateExtensions v st.hs.Extensions f
      { st with hs := { st.hs with Extensions := r.1 }, err := r.2 }
    | _, _ => st
  if u.Negotiate.isNone ∧ (u.ExtensionCustom.isSome ∨ u.Extension.isSome) then
    match u.ExtensionCustom, u.Extension with
    | some custom, _ =>
      let r := custom v st.hs.Extensions
      let st := { st with hs := { st.hs with Extensions := r.1 },
                          calls := st.calls ++ [Call.ExtensionCustom v] }
      if !r.2 then { st with err := some ErrMalformedRequest } else st
    | none, some check =>
      let r := env.btsSelectExtensions v st.hs.Extensions check
      let st := { st with hs := { st.hs with Extensions := r.1 } }
      if !r.2 then { st with err := some ErrMalformedRequest } else st
    | none, none => st
  else st

/-- The `default` case (lines 442-446). -/
def defaultCase (u : Upgrader) (st : LoopState) (k v : Bytes) : LoopState :=
  match u.OnHeader with
  | some onHeader => { st with err := onHeader k v, calls := st.calls ++ [Call.OnHeader k v] }
  | none => st

/-- The `switch httphead.BtsToString(k)` of the header loop: one parsed
header line `k: v`. The string of `k` equals a name exactly when `k` is the
bytes of that name. -/
def headerCase (env : Env) (u : Upgrader) (st : LoopState) (k v : Bytes) : LoopState :=
  if k = httphead.StrToBytes headerHostCanonical then hostCase u st v
  else if k = httphead.StrToBytes headerUpgradeCanonical then upgradeCase env st v
  else if k = httphead.StrToBytes headerConnectionCanonical then connectionCase st v
  else if k = httphead.StrToBytes headerSecVersionCanonical then secVersionCase st v
  else if k = httphead.StrToBytes headerSecKeyCanonical then secKeyCase st v
  else if k = httphead.StrToBytes headerSecProtocolCanonical then secProtocolCase env u st v
  else if k = httphead.StrToBytes headerSecExtensionsCanonical then secExtensionsCase env u st v
  else defaultCase u st k v

/-- How the header loop ends: `readLine` failed (`return hs, nil, e`), or the
loop was left (its condition failed, or a `break`), with the lines that are
still unread. -/
inductive LoopExit where
  | readFailed (st : LoopState) (e : Error)
  | done (st : LoopState) (rest : List Bytes)
deriving DecidableEq, Repr

/-- The loop `for err == nil` of `Upgrade`, over the lines `readLine` delivers. -/
def headerLoop (env : Env) (u : Upgrader) (readErr : Error) :
    List Bytes → LoopState → LoopExit
  | [], st =>
    if st.err.isSome then LoopExit.done st []
    else LoopExit.readFailed st readErr
  | line :: rest, st =>
    if st.err.isSome then LoopExit.done st (line :: rest)
    else if (httphead.Trim line).length = 0 then LoopExit.done st rest
    else
      match env.httpParseHeaderLine line with
      | none => LoopExit.done { st with err := some ErrMalformedRequest } rest
      | some (k, v) => headerLoop env u readErr rest (headerCase env u st k v)

/-- What `Upgrade` returns, with the lines it left unread and the hooks it
called. -/
structure UpgradeReturn where
  hs : Handshake
  out : Bytes
  err : Option Error
  rest : List Bytes
  calls : List Call
deriving DecidableEq, Repr

/-- The `switch` on the request line, lines 341-354: the error and the log. -/
def requestCase (u : Upgrader) (req : httpRequestLine) : Option Error × List Call :=
  if req.major ≠ 1 ∨ req.minor < 1 then (some ErrHandshakeBadProtocol, [])
  else if req.method ≠ httphead.StrToBytes MethodGet then (some ErrHandshakeBadMethod, [])
  else
    match u.OnRequest with
    | some onRequest => (onRequest req.uri, [Call.OnRequest req.uri])
    | none => (none, [])

/-- The tail of `Upgrade` from line 448 on: the check for missing headers,
the hook before the upgrade, and the rendering of the response. -/
def finish (env : Env) (u : Upgrader) (st : LoopState) (rest : List Bytes) :
    Outcome UpgradeReturn :=
  let header : handshakeHeader := ⟨u.Header, none⟩
  let checked : Outcome (handshakeHeader × Option Error × List Call) :=
    if st.err = none ∧ st.headerSeen ≠ headerSeenAll then
      if st.headerSeen &&& headerSeenHost = 0 then
        Outcome.ret (header, some ErrHandshakeBadHost, st.calls)
      else if st.headerSeen &&& headerSeenUpgrade = 0 then
        Outcome.ret (header, some ErrHandshakeBadUpgrade, st.calls)
      else if st.headerSeen &&& headerSeenConnection = 0 then
        Outcome.ret (header, some ErrHandshakeBadConnection, st.calls)
      else if st.headerSeen &&& headerSeenSecVersion = 0 then
        Outcome.ret (header, some ErrHandshakeBadSecVersion, st.calls)
      else if st.headerSeen &&& headerSeenSecKey = 0 then
        Outcome.ret (header, some ErrHandshakeBadSecKey, st.calls)
      else Outcome.panic "unknown headers state"
    else
      match st.err, u.OnBeforeUpgrade with
      | none, some onBeforeUpgrade =>
        Outcome.ret ({ header with h1 := onBeforeUpgrade.1 }, onBeforeUpgrade.2,
          st.calls ++ [Call.OnBeforeUpgrade])
      | _, _ => Outcome.ret (header, st.err, st.calls)
  match checked with
  | Outcome.panic msg => Outcome.panic msg
  | Outcome.ret (header, err, calls) =>
    match err with
    | some e =>
      let code : Int := match e with
        | Error.rejected rej => rej.code
        | Error.other _ => 0
      let header : handshakeHeader := match e with
        | Error.rejected rej => { header with h1 := rej.header }
        | Error.other _ => header
      let code := if code = 0 then StatusInternalServerError else code
      Outcome.ret ⟨st.hs, env.httpWriteResponseError e code header.WriteTo, some e, rest, calls⟩
    | none =>
      Outcome.ret ⟨st.hs, env.httpWriteResponseUpgrade st.nonce st.hs header.WriteTo, none,
        rest, calls⟩

/-- `Upgrader.Upgrade`. -/
def Upgrader.Upgrade (env : Env) (u : Upgrader) (stream : InputStream) :
    Outcome UpgradeReturn :=
  match stream.lines with
  | [] => Outcome.ret ⟨Handshake.zero, [], some stream.readErr, [], []⟩
  | rl :: lines =>
    match env.httpParseRequestLine rl with
    | Except.error e => Outcome.ret ⟨Handshake.zero, [], some e, lines, []⟩
    | Except.ok req =>
      let r := requestCase u req
      let st : LoopState := ⟨r.1, 0, List.replicate nonceSize 0, Handshake.zero, r.2⟩
      match headerLoop env u stream.readErr lines st with
      | LoopExit.readFailed st e => Outcome.ret ⟨st.hs, [], some e, [], st.calls⟩
      | LoopExit.done st rest => finish env u st rest

/-! ## NetHandler.OnReceive -/

/-- `IEasyWs`: the application handler, by the callbacks `OnReceive` uses. -/
structure IEasyWs where
  OnUpgraded : OpCode × Option Error
  OnReceive : Bytes → Bytes × OpCode × Option Error

/-- `NetHandler`; `IsUpgrade` is the map from remote addresses, `none` for an
address that is not a key. -/
structure NetHandler where
  IsUpgrade : String → Option Bool
  EasyWsHandler : IEasyWs

/-- `m[key] = value` on the `IsUpgrade` map. -/
def setUpgrade (m : String → Option Bool) (key : String) (value : Bool) :
    String → Option Bool :=
  fun a => if a = key then some value else m a

/-- What `OnReceive` returns, with the state it leaves behind: the map, the
unread lines and the argument of `End`. -/
structure ReceiveReturn where
  out : Bytes
  err : Option Error
  IsUpgrade : String → Option Bool
  stream : InputStream

/-- Lines 72-88 of `OnReceive`: the frame built for a reply, with its Masked
flag reset. -/
def replyFrame (opCode : OpCode) (wsOutForBiz : Bytes) : Frame :=
  let f : Frame :=
    match opCode with
    | OpCode.OpText => NewTextFrame wsOutForBiz
    | OpCode.OpBinary => NewBinaryFrame wsOutForBiz
    | OpCode.OpPing => NewPongFrame wsOutForBiz
    | OpCode.OpPong => NewPingFrame wsOutForBiz
    | OpCode.OpClose => NewCloseFrame wsOutForBiz
    | OpCode.OpContinuation => Frame.zero
  { f with Header := { f.Header with Masked := false } }

/-- `copy(dst[lo:hi], src)`: the new contents of `dst`. -/
def copyInto (dst : Bytes) (lo hi : Nat) (src : Bytes) : Bytes :=
  dst.take lo ++ copy ((dst.take hi).drop lo) src ++ dst.drop hi

/-- Lines 68-100 of `OnReceive`: the handler is called with the payload and
its reply is encoded. -/
def reply (env : Env) (h : NetHandler) (payload : Bytes) : Bytes × Option Error :=
  match h.EasyWsHandler.OnReceive payload with
  | (_, _, some err) => ([], some err)
  | (wsOutForBiz, opCode, none) =>
    let f := replyFrame opCode wsOutForBiz
    match env.WriteHeader f.Header with
    | Except.error err => ([], some err)
    | Except.ok wheaderBuf =>
      let outFrame := List.replicate (wheaderBuf.length + f.Payload.length) 0
      let outFrame := copyInto outFrame 0 wheaderBuf.length wheaderBuf
      let outFrame := copyInto outFrame wheaderBuf.length
        (wheaderBuf.length + f.Payload.length) f.Payload
      if f.Header.OpCode = OpCode.OpClose then ([], none)
      else (outFrame, none)

/-- Lines 54-65 of `OnReceive`: the payload is taken from the borrowed slice
and the rest is handed back. The value is the payload given to the handler and
the argument of `End`; `make` panics on a negative length and `data[:n]`
panics when `n` exceeds the capacity of `data`. -/
def takePayload (header : Header) (data : Slice) : Outcome (Bytes × Bytes) :=
  if header.Length < 0 then Outcome.panic "makeslice: len out of range"
  else
    let n := header.Length.toNat
    let payload := List.replicate n 0
    if data.cap < n then Outcome.panic "slice bounds out of range"
    else
      let payload := copy payload ((data.elems ++ data.spare).take n)
      let returned : Bytes :=
        if (data.len : Int) > header.Length then data.elems.drop n else []
      let payload := if header.Masked then Cipher payload header.Mask 0 else payload
      Outcome.ret (payload, returned)

/-- `NetHandler.OnReceive`, for the connection whose remote address is `addr`. -/
def NetHandler.OnReceive (env : Env) (h : NetHandler) (addr : String)
    (stream : InputStream) : Outcome ReceiveReturn :=
  match h.IsUpgrade addr with
  | some true =>
    match stream.header with
    | Except.error err => Outcome.ret ⟨[], some err, h.IsUpgrade, stream⟩
    | Except.ok header =>
      match takePayload header stream.borrowed with
      | Outcome.panic msg => Outcome.panic msg
      | Outcome.ret (payload, returned) =>
        let stream := { stream with returned := some returned }
        let r := reply env h payload
        Outcome.ret ⟨r.1, r.2, h.IsUpgrade, stream⟩
  | _ =>
    let upgrader := Upgrader.zero
    match upgrader.Upgrade env stream with
    | Outcome.panic msg => Outcome.panic msg
    | Outcome.ret r =>
      let stream := { stream with lines := r.rest }
      match r.err with
      | some err => Outcome.ret ⟨[], some err, h.IsUpgrade, stream⟩
      | none =>
        let isUpgrade := setUpgrade h.IsUpgrade addr true
        match h.EasyWsHandler.OnUpgraded.2 with
        | some err => Outcome.ret ⟨[], some err, isUpgrade, stream⟩
        | none => Outcome.ret ⟨r.out, none, isUpgrade, stream⟩

/-! ## Notions used to state the properties -/

/-- The state of the header loop when it starts: the error and the log the
request line left, no header seen, a zero nonce. -/
def loopStart (u : Upgrader) (req : httpRequestLine) : LoopState :=
  ⟨(requestCase u req).1, 0, List.replicate nonceSize 0, Handshake.zero, (requestCase u req).2⟩

/-- The header lines `pre` are all accepted from the state `st`: none of them
is blank, each parses as `name: value`, and none raises an error in
`headerCase`. The value is the state after the last of them. -/
def acceptLines (env : Env) (u : Upgrader) : List Bytes → LoopState → Option LoopState
  | [], st => some st
  | line :: rest, st =>
    if (httphead.Trim line).length = 0 then none
    else
      match env.httpParseHeaderLine line with
      | none => none
      | some (k, v) =>
        if (headerCase env u st k v).err.isSome then none
        else acceptLines env u rest (headerCase env u st k v)

/-- Some line of `lines` is a header with the given name. -/
def hasHeader (env : Env) (lines : List Bytes) (name : String) : Bool :=
  lines.any (fun line =>
    match env.httpParseHeaderLine line with
    | some (k, _) => decide (k = httphead.StrToBytes name)
    | none => false)

/-- The rejection the spec prescribes for missing required headers: the error
of the first absent header in the order Host, Upgrade, Connection, Version,
Key; `none` when all five are present. -/
def firstMissing (present : String → Bool) : Option Error :=
  if !present headerHost then some ErrHandshakeBadHost
  else if !present headerUpgrade then some ErrHandshakeBadUpgrade
  else if !present headerConnection then some ErrHandshakeBadConnection
  else if !present headerSecVersion then some ErrHandshakeBadSecVersion
  else if !present headerSecKey then some ErrHandshakeBadSecKey
  else none

/-- The bit of `headerSeen` that a header name sets; 0 for the other names. -/
def seenBit (k : Bytes) : Nat :=
  if k = httphead.StrToBytes headerHostCanonical then headerSeenHost
  else if k = httphead.StrToBytes headerUpgradeCanonical then headerSeenUpgrade
  else if k = httphead.StrToBytes headerConnectionCanonical then headerSeenConnection
  else if k = httphead.StrToBytes headerSecVersionCanonical then headerSeenSecVersion
  else if k = httphead.StrToBytes headerSecKeyCanonical then headerSeenSecKey
  else 0

/-- The status code `Upgrade` renders an error with (lines 490-497). -/
def responseCode (e : Error) : Int :=
  match e with
  | Error.rejected rej => if rej.code = 0 then StatusInternalServerError else rej.code
  | Error.other _ => StatusInternalServerError

/-- The request line is a valid HTTP/1.1 (or 1.x, x >= 1) GET and the
`OnRequest` hook, if there is one, does not abort. -/
def validRequest (u : Upgrader) (req : httpRequestLine) : Prop :=
  req.major = 1 ∧ 1 ≤ req.minor ∧ req.method = httphead.StrToBytes MethodGet ∧
    ∀ f, u.OnRequest = some f → f req.uri = none

/-- The two header writers `Upgrade` renders an error with (lines 491-494):
the configured one, and the one the rejection carries. -/
def rejectionHeader (u : Upgrader) (e : Error) : handshakeHeader :=
  match e with
  | Error.rejected rej => ⟨u.Header, rej.header⟩
  | Error.other _ => ⟨u.Header, none⟩

/-- The response `Upgrade` renders for the error `e` (lines 489-500). -/
def rendered (env : Env) (u : Upgrader) (e : Error) : Bytes :=
  env.httpWriteResponseError e (responseCode e) (rejectionHeader u e).WriteTo

/-- The value of a character of the standard base64 alphabet. -/
def base64Value (c : Nat) : Option Nat :=
  if 65 ≤ c ∧ c ≤ 90 then some (c - 65)
  else if 97 ≤ c ∧ c ≤ 122 then some (c - 71)
  else if 48 ≤ c ∧ c ≤ 57 then some (c + 4)
  else if c = 43 then some 62
  else if c = 47 then some 63
  else none

/-- Standard padded base64 decoding (RFC 4648), the reading of
"base64-decodes" in the claim about `Sec-WebSocket-Key`. -/
def base64Decode : Bytes → Option Bytes
  | [] => some []
  | a :: b :: c :: d :: rest =>
    match base64Value a, base64Value b with
    | some x, some y =>
      if rest = [] ∧ c = 61 ∧ d = 61 then some [(x * 4 + y / 16) % 256]
      else
        match base64Value c with
        | none => none
        | some z =>
          if rest = [] ∧ d = 61 then
            some [(x * 4 + y / 16) % 256, (y * 16 + z / 4) % 256]
          else
            match base64Value d, base64Decode rest with
            | some w, some tail =>
              some ((x * 4 + y / 16) % 256 :: (y * 16 + z / 4) % 256 ::
                (z * 64 + w) % 256 :: tail)
            | _, _ => none
    | _, _ => none
  | _ => none

/-- The value `v` base64-decodes to a nonce of exactly 16 bytes. -/
def decodesToNonce (v : Bytes) : Bool :=
  match base64Decode v with
  | some nonce => decide (nonce.length = 16)
  | none => false

/-- ASCII lower-casing of one byte. -/
def lowerByte (b : Nat) : Nat := if 65 ≤ b ∧ b ≤ 90 then b + 32 else b

/-! ## An instance of the helper functions

The theorems below hold for every `Env`. To evaluate the model on concrete
requests, the helpers are instantiated from the descriptions the spec gives
of them. -/

/-- Splits at every occurrence of `sep`. -/
def splitAll (sep : Nat) : Bytes → List Bytes
  | [] => [[]]
  | b :: rest =>
    if b = sep then [] :: splitAll sep rest
    else
      match splitAll sep rest with
      | [] => [[b]]
      | x :: xs => (b :: x) :: xs

/-- Splits at the first occurrence of `sep`, if there is one. -/
def splitFirst (sep : Nat) : Bytes → Option (Bytes × Bytes)
  | [] => none
  | b :: rest =>
    if b = sep then some ([], rest)
    else
      match splitFirst sep rest with
      | some (l, r) => some (b :: l, r)
      | none => none

/-- Drops leading spaces. -/
def dropSpaces : Bytes → Bytes
  | [] => []
  | b :: rest => if b = 32 then dropSpaces rest else b :: rest

/-- The value of a decimal digit. -/
def digitValue (b : Nat) : Option Int :=
  if 48 ≤ b ∧ b ≤ 57 then some ((b : Int) - 48) else none

/-- Modelled from the spec: `httpParseRequestLine`, declared outside the
sources: "parse as METHOD SP TARGET SP HTTP/<major>.<minor>" (one digit
each); anything else is a malformed request. -/
def specParseRequestLine (line : Bytes) : Except Error httpRequestLine :=
  match splitAll 32 line with
  | [method, uri, version] =>
    if version.take 5 = httphead.StrToBytes "HTTP/" then
      match version.drop 5 with
      | [a, dot, b] =>
        match digitValue a, digitValue b with
        | some major, some minor =>
          if dot = 46 then Except.ok ⟨method, uri, major, minor⟩
          else Except.error ErrMalformedRequest
        | _, _ => Except.error ErrMalformedRequest
      | _ => Except.error ErrMalformedRequest
    else Except.error ErrMalformedRequest
  | _ => Except.error ErrMalformedRequest

/-- Modelled from the spec: `httpParseHeaderLine`, declared outside the
sources: "Each line splits on the first `:`"; the value loses its leading
spaces; a line without a colon is malformed. -/
def specParseHeaderLine (line : Bytes) : Option (Bytes × Bytes) :=
  match splitFirst 58 line with
  | some (k, v) => some (k, dropSpaces v)
  | none => none

/-- The string of a byte sequence. -/
def bytesToString (b : Bytes) : String := String.mk (b.map Char.ofNat)

/-- Modelled from the spec: `btsSelectProtocol`, declared outside the
sources: "returns the first offered token for which predicate holds, in offer
order". -/
def specSelectProtocol (h : Bytes) (check : Bytes → Bool) : String × Bool :=
  match ((splitAll 44 h).map dropSpaces).find? check with
  | some token => (bytesToString token, true)
  | none => ("", true)

/-- Modelled from the spec: the offered options of a header value, by name,
in offer order (parameters are not parsed in this instance). -/
def specOptions (h : Bytes) : List httphead.Option :=
  ((splitAll 44 h).map dropSpaces).map (fun name => ⟨name, []⟩)

/-- The negotiation loop over the offered options. -/
def negotiateAll (f : httphead.Option → httphead.Option × Option Error) :
    List httphead.Option → List httphead.Option → List httphead.Option × Option Error
  | [], dest => (dest, none)
  | opt :: rest, dest =>
    match f opt with
    | (_, some err) => ([], some err)
    | (accepted, none) =>
      if accepted.name = [] then negotiateAll f rest dest
      else negotiateAll f rest (dest ++ [accepted])

/-- Modelled from the spec: `negotiateExtensions`, declared outside the
sources: "invokes negotiate_fn once per offered option in offer order and
appends each accepted result". -/
def specNegotiateExtensions (h : Bytes) (dest : List httphead.Option)
    (f : httphead.Option → httphead.Option × Option Error) :
    List httphead.Option × Option Error :=
  negotiateAll f (specOptions h) dest

/-- Modelled from the spec: `btsSelectExtensions`, declared outside the
sources: the offered options the predicate accepts are appended in offer
order. -/
def specSelectExtensions (h : Bytes) (selected : List httphead.Option)
    (check : httphead.Option → Bool) : List httphead.Option × Bool :=
  (selected ++ (specOptions h).filter check, true)

/-- The three decimal digits of a status code. -/
def statusDigits (code : Int) : Bytes :=
  let n := code.toNat
  [48 + n / 100 % 10, 48 + n / 10 % 10, 48 + n % 10]

/-- `err.Error()`. -/
def errorText (e : Error) : String :=
  match e with
  | Error.rejected rej => rej.reason
  | Error.other msg => msg

/-- Modelled from the spec: `httpWriteResponseError`, declared outside the
sources: "render an HTTP error response using the descriptor's status, reason
(as body), and extra headers", as "status line + headers + body". -/
def specWriteResponseError (err : Error) (code : Int) (header : Bytes) : Bytes :=
  httphead.StrToBytes "HTTP/1.1 " ++ statusDigits code ++ [13, 10] ++ header ++ [13, 10] ++
    httphead.StrToBytes (errorText err)

/-- Modelled from the spec: `httpWriteResponseUpgrade`, declared outside the
sources: "an HTTP 101 response carrying Upgrade: websocket, Connection:
Upgrade, Sec-WebSocket-Accept: <accept>, any negotiated protocol/extensions
headers, and any caller-supplied extra headers". The accept token is computed
by the parameter `accept` (SHA-1 and base64 are not part of this development). -/
def specWriteResponseUpgrade (accept : Bytes → Bytes) (nonce : Bytes) (hs : Handshake)
    (header : Bytes) : Bytes :=
  httphead.StrToBytes "HTTP/1.1 101 Switching Protocols\r\nUpgrade: websocket\r\nConnection: Upgrade\r\nSec-WebSocket-Accept: " ++
    accept nonce ++ [13, 10] ++
    (if hs.Protocol = "" then []
      else httphead.StrToBytes "Sec-WebSocket-Protocol: " ++ httphead.StrToBytes hs.Protocol ++ [13, 10]) ++
    (hs.Extensions.map (fun o =>
      httphead.StrToBytes "Sec-WebSocket-Extensions: " ++ o.name ++ [13, 10])).flatten ++
    header ++ [13, 10]

/-- The number of an opcode on the wire (RFC 6455, section 5.2). -/
def OpCode.toNat : OpCode → Nat
  | OpCode.OpContinuation => 0
  | OpCode.OpText => 1
  | OpCode.OpBinary => 2
  | OpCode.OpClose => 8
  | OpCode.OpPing => 9
  | OpCode.OpPong => 10

/-- The `n` low bytes of `x`, big-endian. -/
def bigEndian : Nat → Nat → Bytes
  | 0, _ => []
  | n + 1, x => bigEndian n (x / 256) ++ [x % 256]

/-- Modelled from the spec: `WriteHeader`, declared outside the sources:
byte 0 is fin, rsv, opcode; byte 1 is the masked flag and the base length;
the smallest of the three length forms; the mask bytes only when masked. -/
def specWriteHeader (h : Header) : Except Error Bytes :=
  let n := h.Length.toNat
  let b0 := (if h.Fin then 128 else 0) + (h.Rsv % 8) * 16 + h.OpCode.toNat
  let m := if h.Masked then 128 else 0
  let len : Bytes :=
    if n ≤ 125 then [m + n]
    else if n ≤ 65535 then (m + 126) :: bigEndian 2 n
    else (m + 127) :: bigEndian 8 n
  let mask : Bytes :=
    if h.Masked then [h.Mask.1, h.Mask.2.1, h.Mask.2.2.1, h.Mask.2.2.2] else []
  Except.ok (b0 :: len ++ mask)

/-- The instance of the helper functions. Beyond ASCII it takes two values
for equal under case folding only when they are identical. Its accept token
is the key as received: the SHA-1 digest is outside this development, and no
statement below is about the 101 response. -/
def specEnv : Env where
  httpParseRequestLine := specParseRequestLine
  httpParseHeaderLine := specParseHeaderLine
  btsSelectProtocol := specSelectProtocol
  negotiateExtensions := specNegotiateExtensions
  btsSelectExtensions := specSelectExtensions
  httpWriteResponseError := specWriteResponseError
  httpWriteResponseUpgrade := specWriteResponseUpgrade (fun nonce => nonce)
  WriteHeader := specWriteHeader
  unicodeFold := fun s t => s == t

/-- A stream holding the given lines and nothing for the frame path. -/
def linesStream (lines : List Bytes) : InputStream :=
  ⟨lines, Error.other "EOF", Except.error (Error.other "EOF"), ⟨[], []⟩, none⟩

/-- A request, line by line. -/
def request (lines : List String) : InputStream :=
  linesStream (lines.map httphead.StrToBytes)

/-- The handler of `example/net/main.go`: it echoes the message as text; with
another opcode in place of `OpText` it serves as a handler that replies with
that opcode. -/
def echoHandler (op : OpCode) : IEasyWs :=
  ⟨(OpCode.OpContinuation, none), fun msg => (msg, op, none)⟩

/-- A `NetHandler` with an empty `IsUpgrade` map. -/
def freshHandler (op : OpCode) : NetHandler := ⟨fun _ => none, echoHandler op⟩

/-- A `NetHandler` for which the connection from `addr` has upgraded. -/
def upgradedHandler (addr : String) (op : OpCode) : NetHandler :=
  ⟨setUpgrade (fun _ => none) addr true, echoHandler op⟩

/-- A stream on which `ReadHeader` answers `header` and `Begin` lends `data`. -/
def frameStream (header : Header) (data : Bytes) : InputStream :=
  ⟨[], Error.other "EOF", Except.ok header, ⟨data, []⟩, none⟩

/-- The header of an unmasked text frame of the given length. -/
def textHeader (length : Int) : Header :=
  ⟨true, 0, OpCode.OpText, false, (0, 0, 0, 0), length⟩

/-- The state the header loop ends in. -/
def LoopExit.state : LoopExit → LoopState
  | LoopExit.readFailed st _ => st
  | LoopExit.done st _ => st

/-- The header of a masked text frame of the given length. -/
def maskedHeader (mask : Nat × Nat × Nat × Nat) (length : Int) : Header :=
  ⟨true, 0, OpCode.OpText, true, mask, length⟩

/-- An `Upgrader` whose `OnHost` hook refuses every host with an error that is
not a `ConnectionRejectedError`, and that has an `OnBeforeUpgrade` hook. -/
def guardedUpgrader : Upgrader :=
  { Upgrader.zero with
    OnHost := some (fun _ => some (Error.other "denied")),
    OnBeforeUpgrade := some (none, none) }

/-! ## Lemmas on the header loop and the tail of `Upgrade` -/

theorem headerLoop_of_err (env : Env) (u : Upgrader) (readErr : Error) (lines : List Bytes)
    (st : LoopState) (e : Error) (h : st.err = some e) :
    headerLoop env u readErr lines st = LoopExit.done st lines := by
  cases lines <;> simp [headerLoop, h]

theorem finish_of_err (env : Env) (u : Upgrader) (st : LoopState) (rest : List Bytes)
    (e : Error) (h : st.err = some e) :
    finish env u st rest = Outcome.ret ⟨st.hs, rendered env u e, some e, rest, st.calls⟩ := by
  cases e with
  | rejected rej =>
    by_cases hc : rej.code = 0 <;>
      simp [finish, h, rendered, responseCode, rejectionHeader, hc]
  | other msg => simp [finish, h, rendered, responseCode, rejectionHeader]

theorem Upgrade_of_request (env : Env) (u : Upgrader) (stream : InputStream) (rl : Bytes)
    (lines : List Bytes) (req : httpRequestLine) (hlines : stream.lines = rl :: lines)
    (hreq : env.httpParseRequestLine rl = Except.ok req) :
    u.Upgrade env stream =
      match headerLoop env u stream.readErr lines (loopStart u req) with
      | LoopExit.readFailed st e => Outcome.ret ⟨st.hs, [], some e, [], st.calls⟩
      | LoopExit.done st rest => finish env u st rest := by
  simp [Upgrader.Upgrade, hlines, hreq, loopStart]

theorem loopStart_of_valid (u : Upgrader) (req : httpRequestLine) (h : validRequest u req) :
    (loopStart u req).err = none ∧ (loopStart u req).headerSeen = 0 := by
  obtain ⟨h1, h2, h3, h4⟩ := h
  have hv : ¬ (req.major ≠ 1 ∨ req.minor < 1) := by omega
  cases hf : u.OnRequest with
  | none => simp [loopStart, requestCase, hv, h3, hf]
  | some f => simp [loopStart, requestCase, hv, h3, hf, h4 f hf]

theorem hostCase_headerSeen (u : Upgrader) (st : LoopState) (v : Bytes) :
    (hostCase u st v).headerSeen = st.headerSeen ||| headerSeenHost := by
  unfold hostCase; cases u.OnHost <;> rfl

theorem upgradeCase_headerSeen (env : Env) (st : LoopState) (v : Bytes) :
    (upgradeCase env st v).headerSeen = st.headerSeen ||| headerSeenUpgrade := by
  unfold upgradeCase; dsimp only; split <;> rfl

theorem connectionCase_headerSeen (st : LoopState) (v : Bytes) :
    (connectionCase st v).headerSeen = st.headerSeen ||| headerSeenConnection := by
  unfold connectionCase; dsimp only; split <;> rfl

theorem secVersionCase_headerSeen (st : LoopState) (v : Bytes) :
    (secVersionCase st v).headerSeen = st.headerSeen ||| headerSeenSecVersion := by
  unfold secVersionCase; dsimp only; split <;> rfl

theorem secKeyCase_headerSeen (st : LoopState) (v : Bytes) :
    (secKeyCase st v).headerSeen = st.headerSeen ||| headerSeenSecKey := by
  unfold secKeyCase; dsimp only; split <;> rfl

theorem secProtocolCase_headerSeen (env : Env) (u : Upgrader) (st : LoopState) (v : Bytes) :
    (secProtocolCase env u st v).headerSeen = st.headerSeen := by
  unfold secProtocolCase
  split
  · split
    · dsimp only; split <;> rfl
    · dsimp only; split <;> rfl
    · rfl
  · rfl

theorem secExtensionsCase_headerSeen (env : Env) (u : Upgrader) (st : LoopState) (v : Bytes) :
    (secExtensionsCase env u st v).headerSeen = st.headerSeen := by
  unfold secExtensionsCase
  have h0 : (match st.err, u.Negotiate with
      | none, some f =>
        ({ st with hs := { st.hs with Extensions := (env.negotiateExtensions v st.hs.Extensions f).1 },
                   err := (env.negotiateExtensions v st.hs.Extensions f).2 } : LoopState)
      | _, _ => st).headerSeen = st.headerSeen := by
    split <;> rfl
  dsimp only
  split
  · split
    · split <;> exact h0
    · split <;> exact h0
    · exact h0
  · exact h0

theorem defaultCase_headerSeen (u : Upgrader) (st : LoopState) (k v : Bytes) :
    (defaultCase u st k v).headerSeen = st.headerSeen := by
  unfold defaultCase; cases u.OnHeader <;> rfl

theorem headerCase_headerSeen (env : Env) (u : Upgrader) (st : LoopState) (k v : Bytes) :
    (headerCase env u st k v).headerSeen = st.headerSeen ||| seenBit k := by
  unfold headerCase seenBit
  split_ifs
  · exact hostCase_headerSeen u st v
  · exact upgradeCase_headerSeen env st v
  · exact connectionCase_headerSeen st v
  · exact secVersionCase_headerSeen st v
  · exact secKeyCase_headerSeen st v
  · rw [secProtocolCase_headerSeen]; simp
  · rw [secExtensionsCase_headerSeen]; simp
  · rw [defaultCase_headerSeen]; simp

theorem acceptLines_err (env : Env) (u : Upgrader) (pre : List Bytes) :
    ∀ st st1, acceptLines env u pre st = some st1 → st.err = none → st1.err = none := by
  induction pre with
  | nil => intro st st1 h he; simp [acceptLines] at h; subst h; exact he
  | cons line rest ih =>
    intro st st1 h he
    unfold acceptLines at h
    split at h
    · cases h
    · split at h
      · cases h
      · split at h
        · cases h
        · rename_i hs
          apply ih _ _ h
          cases hq : (headerCase env u st _ _).err with
          | none => rfl
          | some e => simp [hq] at hs

theorem headerLoop_append (env : Env) (u : Upgrader) (readErr : Error) (tail : List Bytes)
    (pre : List Bytes) :
    ∀ st st1, acceptLines env u pre st = some st1 → st.err = none →
      headerLoop env u readErr (pre ++ tail) st = headerLoop env u readErr tail st1 := by
  induction pre with
  | nil => intro st st1 h _; simp [acceptLines] at h; subst h; rfl
  | cons line rest ih =>
    intro st st1 h he
    unfold acceptLines at h
    split at h
    · cases h
    · rename_i hb
      split at h
      · cases h
      · rename_i k v hp
        split at h
        · cases h
        · rename_i hs
          have hq : (headerCase env u st k v).err = none := by
            cases hq : (headerCase env u st k v).err with
            | none => rfl
            | some e => simp [hq] at hs
          rw [List.cons_append, headerLoop]
          simp only [he, Option.isSome_none, hb, hp]
          simpa using ih _ _ h hq

theorem seen_or_and :
    ∀ s, s < 32 → ∀ b ∈ [0, 1, 2, 4, 8, 16], ∀ c ∈ [1, 2, 4, 8, 16],
      (s ||| b) < 32 ∧ ((s ||| b) &&& c = 0 ↔ (s &&& c = 0 ∧ b ≠ c)) := by
  decide

theorem seenBit_mem (k : Bytes) : seenBit k ∈ [0, 1, 2, 4, 8, 16] := by
  unfold seenBit
  split_ifs <;> simp [headerSeenHost, headerSeenUpgrade, headerSeenConnection,
    headerSeenSecVersion, headerSeenSecKey]

theorem hasHeader_cons (env : Env) (line : Bytes) (rest : List Bytes) (name : String)
    (k v : Bytes) (hp : env.httpParseHeaderLine line = some (k, v)) :
    hasHeader env (line :: rest) name =
      (decide (k = httphead.StrToBytes name) || hasHeader env rest name) := by
  simp [hasHeader, hp]

theorem acceptLines_seen (env : Env) (u : Upgrader) (name : String) (bit : Nat)
    (hbit : bit ∈ [1, 2, 4, 8, 16])
    (hname : ∀ k, seenBit k = bit ↔ k = httphead.StrToBytes name) (pre : List Bytes) :
    ∀ st st1, acceptLines env u pre st = some st1 → st.headerSeen < 32 →
      st1.headerSeen < 32 ∧
      (st1.headerSeen &&& bit = 0 ↔
        (st.headerSeen &&& bit = 0 ∧ hasHeader env pre name = false)) := by
  induction pre with
  | nil =>
    intro st st1 h hlt
    simp [acceptLines] at h
    subst h
    simp [hasHeader, hlt]
  | cons line rest ih =>
    intro st st1 h hlt
    unfold acceptLines at h
    split at h
    · cases h
    · split at h
      · cases h
      · rename_i k v hp
        split at h
        · cases h
        · have hstep := seen_or_and st.headerSeen hlt (seenBit k) (seenBit_mem k) bit hbit
          rw [← headerCase_headerSeen env u st k v] at hstep
          obtain ⟨hlt2, hiff⟩ := ih _ _ h hstep.1
          refine ⟨hlt2, ?_⟩
          rw [hiff, hstep.2, hasHeader_cons env line rest name k v hp]
          have hk := hname k
          simp only [Bool.or_eq_false_iff, decide_eq_false_iff_not, ne_eq]
          tauto

theorem seenBit_host (k : Bytes) :
    seenBit k = 1 ↔ k = httphead.StrToBytes headerHost := by
  unfold seenBit
  split_ifs with h1 h2 h3 h4 h5 <;>
    simp_all [headerSeenHost, headerSeenUpgrade, headerSeenConnection, headerSeenSecVersion,
      headerSeenSecKey, headerHostCanonical, headerUpgradeCanonical, headerConnectionCanonical,
      headerSecVersionCanonical, headerSecKeyCanonical]

theorem seenBit_upgrade (k : Bytes) :
    seenBit k = 2 ↔ k = httphead.StrToBytes headerUpgrade := by
  unfold seenBit
  split_ifs with h1 h2 h3 h4 h5 <;>
    simp_all [headerSeenHost, headerSeenUpgrade, headerSeenConnection, headerSeenSecVersion,
      headerSeenSecKey, headerHostCanonical, headerUpgradeCanonical, headerConnectionCanonical,
      headerSecVersionCanonical, headerSecKeyCanonical]
  all_goals decide

theorem seenBit_connection (k : Bytes) :
    seenBit k = 4 ↔ k = httphead.StrToBytes headerConnection := by
  unfold seenBit
  split_ifs with h1 h2 h3 h4 h5 <;>
    simp_all [headerSeenHost, headerSeenUpgrade, headerSeenConnection, headerSeenSecVersion,
      headerSeenSecKey, headerHostCanonical, headerUpgradeCanonical, headerConnectionCanonical,
      headerSecVersionCanonical, headerSecKeyCanonical]
  all_goals decide

theorem seenBit_secVersion (k : Bytes) :
    seenBit k = 8 ↔ k = httphead.StrToBytes headerSecVersion := by
  unfold seenBit
  split_ifs with h1 h2 h3 h4 h5 <;>
    simp_all [headerSeenHost, headerSeenUpgrade, headerSeenConnection, headerSeenSecVersion,
      headerSeenSecKey, headerHostCanonical, headerUpgradeCanonical, headerConnectionCanonical,
      headerSecVersionCanonical, headerSecKeyCanonical]
  all_goals decide

theorem seenBit_secKey (k : Bytes) :
    seenBit k = 16 ↔ k = httphead.StrToBytes headerSecKey := by
  unfold seenBit
  split_ifs with h1 h2 h3 h4 h5 <;>
    simp_all [headerSeenHost, headerSeenUpgrade, headerSeenConnection, headerSeenSecVersion,
      headerSeenSecKey, headerHostCanonical, headerUpgradeCanonical, headerConnectionCanonical,
      headerSecVersionCanonical, headerSecKeyCanonical]
  all_goals decide

/-- After the accepted header lines `pre`, read from the start of the loop, a
bit of `headerSeen` is clear exactly when its header is not among `pre`. -/
theorem seen_after_accept (env : Env) (u : Upgrader) (pre : List Bytes) (st0 st : LoopState)
    (h0 : st0.headerSeen = 0) (hacc : acceptLines env u pre st0 = some st) :
    st.headerSeen < 32 ∧
    (st.headerSeen &&& headerSeenHost = 0 ↔ hasHeader env pre headerHost = false) ∧
    (st.headerSeen &&& headerSeenUpgrade = 0 ↔ hasHeader env pre headerUpgrade = false) ∧
    (st.headerSeen &&& headerSeenConnection = 0 ↔
      hasHeader env pre headerConnection = false) ∧
    (st.headerSeen &&& headerSeenSecVersion = 0 ↔
      hasHeader env pre headerSecVersion = false) ∧
    (st.headerSeen &&& headerSeenSecKey = 0 ↔ hasHeader env pre headerSecKey = false) := by
  have hlt : st0.headerSeen < 32 := by omega
  have a1 := acceptLines_seen env u headerHost 1 (by decide) seenBit_host pre st0 st hacc hlt
  have a2 := acceptLines_seen env u headerUpgrade 2 (by decide) seenBit_upgrade pre st0 st hacc hlt
  have a3 := acceptLines_seen env u headerConnection 4 (by decide) seenBit_connection pre st0 st
    hacc hlt
  have a4 := acceptLines_seen env u headerSecVersion 8 (by decide) seenBit_secVersion pre st0 st
    hacc hlt
  have a5 := acceptLines_seen env u headerSecKey 16 (by decide) seenBit_secKey pre st0 st
    hacc hlt
  simp only [h0, Nat.zero_and, true_and] at a1 a2 a3 a4 a5
  exact ⟨a1.1, a1.2, a2.2, a3.2, a4.2, a5.2⟩

theorem headerLoop_blank (env : Env) (u : Upgrader) (readErr : Error) (blank : Bytes)
    (rest : List Bytes) (st : LoopState) (he : st.err = none)
    (hb : httphead.Trim blank = []) :
    headerLoop env u readErr (blank :: rest) st = LoopExit.done st rest := by
  simp [headerLoop, he, hb]

theorem ne_all_of_clear (s b : Nat) (hb : b ∈ [1, 2, 4, 8, 16]) (h : s &&& b = 0) :
    s ≠ headerSeenAll := by
  intro hs
  subst hs
  revert h
  revert b
  decide

/-- The tail of `Upgrade` when no error was raised and a required header was
not seen: the rejection is that of the first clear bit. -/
theorem finish_missing (env : Env) (u : Upgrader) (st : LoopState) (rest : List Bytes)
    (he : st.err = none) :
    (st.headerSeen &&& headerSeenHost = 0 →
      finish env u st rest =
        Outcome.ret ⟨st.hs, rendered env u ErrHandshakeBadHost, some ErrHandshakeBadHost, rest,
          st.calls⟩) ∧
    (st.headerSeen &&& headerSeenHost ≠ 0 → st.headerSeen &&& headerSeenUpgrade = 0 →
      finish env u st rest =
        Outcome.ret ⟨st.hs, rendered env u ErrHandshakeBadUpgrade, some ErrHandshakeBadUpgrade,
          rest, st.calls⟩) ∧
    (st.headerSeen &&& headerSeenHost ≠ 0 → st.headerSeen &&& headerSeenUpgrade ≠ 0 →
      st.headerSeen &&& headerSeenConnection = 0 →
      finish env u st rest =
        Outcome.ret ⟨st.hs, rendered env u ErrHandshakeBadConnection,
          some ErrHandshakeBadConnection, rest, st.calls⟩) ∧
    (st.headerSeen &&& headerSeenHost ≠ 0 → st.headerSeen &&& headerSeenUpgrade ≠ 0 →
      st.headerSeen &&& headerSeenConnection ≠ 0 → st.headerSeen &&& headerSeenSecVersion = 0 →
      finish env u st rest =
        Outcome.ret ⟨st.hs, rendered env u ErrHandshakeBadSecVersion,
          some ErrHandshakeBadSecVersion, rest, st.calls⟩) ∧
    (st.headerSeen &&& headerSeenHost ≠ 0 → st.headerSeen &&& headerSeenUpgrade ≠ 0 →
      st.headerSeen &&& headerSeenConnection ≠ 0 → st.headerSeen &&& headerSeenSecVersion ≠ 0 →
      st.headerSeen &&& headerSeenSecKey = 0 →
      finish env u st rest =
        Outcome.ret ⟨st.hs, rendered env u ErrHandshakeBadSecKey, some ErrHandshakeBadSecKey,
          rest, st.calls⟩) := by
  refine ⟨?_, ?_, ?_, ?_, ?_⟩
  · intro h1
    have hne := ne_all_of_clear _ _ (by decide) h1
    simp [finish, he, hne, h1]
    rfl
  · intro h1 h2
    have hne := ne_all_of_clear _ _ (by decide) h2
    simp [finish, he, hne, h1, h2]
    rfl
  · intro h1 h2 h3
    have hne := ne_all_of_clear _ _ (by decide) h3
    simp [finish, he, hne, h1, h2, h3]
    rfl
  · intro h1 h2 h3 h4
    have hne := ne_all_of_clear _ _ (by decide) h4
    simp [finish, he, hne, h1, h2, h3, h4]
    rfl
  · intro h1 h2 h3 h4 h5
    have hne := ne_all_of_clear _ _ (by decide) h5
    simp [finish, he, hne, h1, h2, h3, h4, h5]
    rfl

/-- With a valid request line and the header lines `pre` accepted up to the
blank line, `Upgrade` rejects with the error `firstMissing` gives. -/
theorem Upgrade_of_firstMissing (env : Env) (u : Upgrader) (stream : InputStream)
    (rl blank : Bytes) (pre rest : List Bytes) (req : httpRequestLine) (st : LoopState)
    (e : Error)
    (hlines : stream.lines = rl :: (pre ++ blank :: rest))
    (hreq : env.httpParseRequestLine rl = Except.ok req)
    (hvalid : validRequest u req)
    (hacc : acceptLines env u pre (loopStart u req) = some st)
    (hblank : httphead.Trim blank = [])
    (hmiss : firstMissing (hasHeader env pre) = some e) :
    u.Upgrade env stream = Outcome.ret
      ⟨st.hs,
       env.httpWriteResponseError e 400 (handshakeHeader.WriteTo ⟨u.Header, none⟩),
       some e, rest, st.calls⟩ := by
  obtain ⟨he0, hs0⟩ := loopStart_of_valid u req hvalid
  have he := acceptLines_err env u pre _ _ hacc he0
  obtain ⟨_, b1, b2, b3, b4, b5⟩ := seen_after_accept env u pre _ st hs0 hacc
  obtain ⟨f1, f2, f3, f4, f5⟩ := finish_missing env u st rest he
  rw [Upgrade_of_request env u stream rl _ req hlines hreq,
    headerLoop_append env u _ (blank :: rest) pre _ st hacc he0,
    headerLoop_blank env u _ blank rest st he hblank]
  simp only []
  unfold firstMissing at hmiss
  cases h1 : hasHeader env pre headerHost with
  | false =>
    simp [h1] at hmiss
    subst hmiss
    rw [f1 (b1.2 h1)]; rfl
  | true =>
    have n1 : st.headerSeen &&& headerSeenHost ≠ 0 := fun h => by simp [b1.1 h] at h1
    cases h2 : hasHeader env pre headerUpgrade with
    | false =>
      simp [h1, h2] at hmiss
      subst hmiss
      rw [f2 n1 (b2.2 h2)]; rfl
    | true =>
      have n2 : st.headerSeen &&& headerSeenUpgrade ≠ 0 := fun h => by simp [b2.1 h] at h2
      cases h3 : hasHeader env pre headerConnection with
      | false =>
        simp [h1, h2, h3] at hmiss
        subst hmiss
        rw [f3 n1 n2 (b3.2 h3)]; rfl
      | true =>
        have n3 : st.headerSeen &&& headerSeenConnection ≠ 0 := fun h => by
          simp [b3.1 h] at h3
        cases h4 : hasHeader env pre headerSecVersion with
        | false =>
          simp [h1, h2, h3, h4] at hmiss
          subst hmiss
          rw [f4 n1 n2 n3 (b4.2 h4)]; rfl
        | true =>
          have n4 : st.headerSeen &&& headerSeenSecVersion ≠ 0 := fun h => by
            simp [b4.1 h] at h4
          cases h5 : hasHeader env pre headerSecKey with
          | false =>
            simp [h1, h2, h3, h4, h5] at hmiss
            subst hmiss
            rw [f5 n1 n2 n3 n4 (b5.2 h5)]; rfl
          | true => simp [h1, h2, h3, h4, h5] at hmiss

theorem headerLoop_parsed (env : Env) (u : Upgrader) (readErr : Error) (line : Bytes)
    (rest : List Bytes) (st : LoopState) (k v : Bytes) (he : st.err = none)
    (hnb : httphead.Trim line ≠ []) (hp : env.httpParseHeaderLine line = some (k, v)) :
    headerLoop env u readErr (line :: rest) st =
      headerLoop env u readErr rest (headerCase env u st k v) := by
  simp [headerLoop, he, hnb, hp]

theorem headerLoop_unparsed (env : Env) (u : Upgrader) (readErr : Error) (line : Bytes)
    (rest : List Bytes) (st : LoopState) (he : st.err = none)
    (hnb : httphead.Trim line ≠ []) (hp : env.httpParseHeaderLine line = none) :
    headerLoop env u readErr (line :: rest) st =
      LoopExit.done { st with err := some ErrMalformedRequest } rest := by
  simp [headerLoop, he, hnb, hp]

/-- With a valid request line and the header lines `pre` accepted, a header
line on which `headerCase` raises an error ends the loop: `Upgrade` returns
that error, rendered, and leaves the later lines unread. -/
theorem Upgrade_stops_at (env : Env) (u : Upgrader) (stream : InputStream)
    (rl line : Bytes) (pre rest : List Bytes) (req : httpRequestLine) (st : LoopState)
    (k v : Bytes) (e : Error)
    (hlines : stream.lines = rl :: (pre ++ line :: rest))
    (hreq : env.httpParseRequestLine rl = Except.ok req)
    (hvalid : validRequest u req)
    (hacc : acceptLines env u pre (loopStart u req) = some st)
    (hnb : httphead.Trim line ≠ [])
    (hp : env.httpParseHeaderLine line = some (k, v))
    (herr : (headerCase env u st k v).err = some e) :
    u.Upgrade env stream = Outcome.ret
      ⟨(headerCase env u st k v).hs, rendered env u e, some e, rest,
       (headerCase env u st k v).calls⟩ := by
  obtain ⟨he0, _⟩ := loopStart_of_valid u req hvalid
  have he := acceptLines_err env u pre _ _ hacc he0
  rw [Upgrade_of_request env u stream rl _ req hlines hreq,
    headerLoop_append env u _ (line :: rest) pre _ st hacc he0,
    headerLoop_parsed env u _ line rest st k v he hnb hp,
    headerLoop_of_err env u _ rest _ e herr]
  exact finish_of_err env u _ rest e herr

/-- With a valid request line and the header lines `pre` accepted, a line
that does not parse ends the loop with `ErrMalformedRequest`. -/
theorem Upgrade_stops_at_unparsed (env : Env) (u : Upgrader) (stream : InputStream)
    (rl line : Bytes) (pre rest : List Bytes) (req : httpRequestLine) (st : LoopState)
    (hlines : stream.lines = rl :: (pre ++ line :: rest))
    (hreq : env.httpParseRequestLine rl = Except.ok req)
    (hvalid : validRequest u req)
    (hacc : acceptLines env u pre (loopStart u req) = some st)
    (hnb : httphead.Trim line ≠ [])
    (hp : env.httpParseHeaderLine line = none) :
    u.Upgrade env stream = Outcome.ret
      ⟨st.hs, rendered env u ErrMalformedRequest, some ErrMalformedRequest, rest,
       st.calls⟩ := by
  obtain ⟨he0, _⟩ := loopStart_of_valid u req hvalid
  have he := acceptLines_err env u pre _ _ hacc he0
  rw [Upgrade_of_request env u stream rl _ req hlines hreq,
    headerLoop_append env u _ (line :: rest) pre _ st hacc he0,
    headerLoop_unparsed env u _ line rest st he hnb hp]
  exact finish_of_err env u _ rest ErrMalformedRequest rfl

theorem headerCase_upgrade (env : Env) (u : Upgrader) (st : LoopState) (v : Bytes) :
    headerCase env u st (httphead.StrToBytes headerUpgrade) v = upgradeCase env st v := by
  unfold headerCase
  rw [if_neg (by decide)]
  exact if_pos rfl

theorem headerCase_connection (env : Env) (u : Upgrader) (st : LoopState) (v : Bytes) :
    headerCase env u st (httphead.StrToBytes headerConnection) v = connectionCase st v := by
  unfold headerCase
  rw [if_neg (by decide), if_neg (by decide)]
  exact if_pos rfl

theorem headerCase_secVersion (env : Env) (u : Upgrader) (st : LoopState) (v : Bytes) :
    headerCase env u st (httphead.StrToBytes headerSecVersion) v = secVersionCase st v := by
  unfold headerCase
  rw [if_neg (by decide), if_neg (by decide), if_neg (by decide)]
  exact if_pos rfl

theorem headerCase_secKey (env : Env) (u : Upgrader) (st : LoopState) (v : Bytes) :
    headerCase env u st (httphead.StrToBytes headerSecKey) v = secKeyCase st v := by
  unfold headerCase
  rw [if_neg (by decide), if_neg (by decide), if_neg (by decide), if_neg (by decide)]
  exact if_pos rfl

theorem connectionCase_err (st : LoopState) (v : Bytes) :
    (connectionCase st v).err =
      if v = specHeaderValueConnection then st.err else some ErrHandshakeBadConnection := by
  unfold connectionCase
  by_cases h : v = specHeaderValueConnection <;> simp [h]

theorem secVersionCase_err (st : LoopState) (v : Bytes) :
    (secVersionCase st v).err =
      if v = specHeaderValueSecVersion then st.err else some ErrHandshakeUpgradeRequired := by
  unfold secVersionCase
  by_cases h : v = specHeaderValueSecVersion <;> simp [h]

theorem secKeyCase_err (st : LoopState) (v : Bytes) :
    (secKeyCase st v).err =
      if v.length = nonceSize then st.err else some ErrHandshakeBadSecKey := by
  unfold secKeyCase
  by_cases h : v.length = nonceSize <;> simp [h]

theorem upgradeCase_err (env : Env) (st : LoopState) (v : Bytes) :
    (upgradeCase env st v).err =
      if v = specHeaderValueUpgrade ∨ EqualFold env.unicodeFold v specHeaderValueUpgrade = true
      then st.err else some ErrHandshakeBadUpgrade := by
  unfold upgradeCase
  by_cases h : v = specHeaderValueUpgrade
  · simp [h]
  · cases h2 : EqualFold env.unicodeFold v specHeaderValueUpgrade <;> simp [h, h2]

theorem foldByte (sr tr : Nat) (hs : sr < 128) (ht : 97 ≤ tr ∧ tr ≤ 122) :
    (tr = sr ∨ (65 ≤ min sr tr ∧ min sr tr ≤ 90 ∧ max sr tr = min sr tr + 32)) ↔
      lowerByte sr = tr := by
  unfold lowerByte
  simp only [Nat.min_def, Nat.max_def]
  split_ifs <;> omega

/-- On ASCII bytes and a lower-case ASCII pattern, `EqualFold` is equality
after lower-casing. -/
theorem EqualFold_ascii (uf : Bytes → Bytes → Bool) :
    ∀ (s t : Bytes), (∀ b ∈ s, b < 128) → (∀ c ∈ t, 97 ≤ c ∧ c ≤ 122) →
      (EqualFold uf s t = true ↔ s.map lowerByte = t) := by
  intro s
  induction s with
  | nil =>
    intro t _ _
    cases t <;> simp [EqualFold]
  | cons sr s ih =>
    intro t hs ht
    cases t with
    | nil => simp [EqualFold]
    | cons tr t =>
      have hsr : sr < 128 := hs sr (List.mem_cons_self _ _)
      have htr : 97 ≤ tr ∧ tr ≤ 122 := ht tr (List.mem_cons_self _ _)
      have ih2 := ih t (fun b hb => hs b (List.mem_cons_of_mem _ hb))
        (fun c hc => ht c (List.mem_cons_of_mem _ hc))
      have hb := foldByte sr tr hsr htr
      have hn : ¬ (128 ≤ sr ∨ 128 ≤ tr) := by omega
      unfold EqualFold
      rw [if_neg hn]
      by_cases h1 : tr = sr
      · rw [if_pos h1, ih2]
        have : lowerByte sr = tr := hb.1 (Or.inl h1)
        simp [this]
      · rw [if_neg h1]
        by_cases h2 : 65 ≤ min sr tr ∧ min sr tr ≤ 90 ∧ max sr tr = min sr tr + 32
        · rw [if_pos h2, ih2]
          have : lowerByte sr = tr := hb.1 (Or.inr h2)
          simp [this]
        · rw [if_neg h2]
          have : ¬ lowerByte sr = tr := fun h => by
            rcases hb.2 h with h3 | h3
            · exact h1 h3
            · exact h2 h3
          simp [this]

theorem upgradeCase_hs_calls (env : Env) (st : LoopState) (v : Bytes) :
    (upgradeCase env st v).hs = st.hs ∧ (upgradeCase env st v).calls = st.calls := by
  unfold upgradeCase; dsimp only; split <;> exact ⟨rfl, rfl⟩

theorem connectionCase_hs_calls (st : LoopState) (v : Bytes) :
    (connectionCase st v).hs = st.hs ∧ (connectionCase st v).calls = st.calls := by
  unfold connectionCase; dsimp only; split <;> exact ⟨rfl, rfl⟩

theorem secVersionCase_hs_calls (st : LoopState) (v : Bytes) :
    (secVersionCase st v).hs = st.hs ∧ (secVersionCase st v).calls = st.calls := by
  unfold secVersionCase; dsimp only; split <;> exact ⟨rfl, rfl⟩

theorem secKeyCase_hs_calls (st : LoopState) (v : Bytes) :
    (secKeyCase st v).hs = st.hs ∧ (secKeyCase st v).calls = st.calls := by
  unfold secKeyCase; dsimp only; split <;> exact ⟨rfl, rfl⟩

theorem base64Decode_length (v : Bytes) :
    ∀ n, base64Decode v = some n → v.length = 4 * ((n.length + 2) / 3) := by
  induction v using base64Decode.induct with
  | case1 => intro n h; simp [base64Decode] at h; subst h; rfl
  | case2 a b c d rest x y hx hy hpad =>
    intro n h
    simp [base64Decode, hx, hy, hpad] at h
    obtain ⟨h1, h2, h3⟩ := hpad
    subst h h1
    simp
  | case3 a b c d rest x y hx hy hpad hz =>
    intro n h
    simp [base64Decode, hx, hy, hpad, hz] at h
  | case4 a b c d rest x y hx hy hpad z hz hpad2 =>
    intro n h
    obtain ⟨h1, h2⟩ := hpad2
    have hc : c ≠ 61 := by
      intro hc; subst hc; simp [base64Value] at hz
    simp [base64Decode, hx, hy, hz, h1, h2, hc] at h
    subst h h1
    simp
  | case5 a b c d rest x y hx hy hpad z hz hpad2 w tail ht hw ih =>
    intro n h
    simp [base64Decode, hx, hy, hpad, hz, hpad2, hw, ht] at h
    subst h
    have := ih tail ht
    simp [this]
    omega
  | case6 a b c d rest x y hx hy hpad z hz hpad2 hno ih =>
    intro n h
    rw [base64Decode] at h
    simp only [hx, hy, hz, if_neg hpad, if_neg hpad2] at h
    cases hd : base64Value d with
    | none => simp [hd] at h
    | some w =>
      cases hr : base64Decode rest with
      | none => simp [hd, hr] at h
      | some tail => exact (hno w tail hd hr).elim
  | case7 a b c d rest hno =>
    intro n h
    rw [base64Decode] at h
    split at h
    · rename_i x y hx hy
      exact (hno x y hx hy).elim
    · cases h
  | case8 t h1 h2 =>
    intro n h
    unfold base64Decode at h
    split at h
    · exact (h1 rfl).elim
    · exact (h2 _ _ _ _ _ rfl).elim
    · cases h

/-- A value that base64-decodes to 16 bytes is 24 bytes long. -/
theorem length_of_decodesToNonce (v : Bytes) (h : decodesToNonce v = true) :
    v.length = 24 := by
  unfold decodesToNonce at h
  cases hd : base64Decode v with
  | none => simp [hd] at h
  | some n =>
    simp [hd] at h
    rw [base64Decode_length v n hd, h]

theorem headerLoop_exhausted (env : Env) (u : Upgrader) (readErr : Error) (pre : List Bytes)
    (st0 st : LoopState) (hacc : acceptLines env u pre st0 = some st) (he : st0.err = none) :
    headerLoop env u readErr pre st0 = LoopExit.readFailed st readErr := by
  have h := headerLoop_append env u readErr [] pre st0 st hacc he
  rw [List.append_nil] at h
  rw [h]
  simp [headerLoop, acceptLines_err env u pre st0 st hacc he]

theorem copyInto_header_payload (w p : Bytes) :
    copyInto (copyInto (List.replicate (w.length + p.length) 0) 0 w.length w) w.length
      (w.length + p.length) p = w ++ p := by
  simp [copyInto, copy, List.take_append_eq_append_take, List.drop_append_eq_append_drop,
    List.take_replicate, List.drop_replicate]

/-! ## C1 -/

/-- C1: for a request whose request line is a valid HTTP/1.1 GET (no hook
aborting) and whose header lines `pre`, up to the blank line, are all
accepted, if a required header is absent then `Upgrade` rejects with the error
of the first absent header in the order Host, Upgrade, Connection, Version,
Key, rendered with status 400, whatever else is absent and in whatever order
the present headers came. -/
theorem Upgrade_missing_header (env : Env) (u : Upgrader) (stream : InputStream)
    (rl blank : Bytes) (pre rest : List Bytes) (req : httpRequestLine) (st : LoopState)
    (e : Error)
    (hlines : stream.lines = rl :: (pre ++ blank :: rest))
    (hreq : env.httpParseRequestLine rl = Except.ok req)
    (hvalid : validRequest u req)
    (hacc : acceptLines env u pre (loopStart u req) = some st)
    (hblank : httphead.Trim blank = [])
    (hmiss : firstMissing (hasHeader env pre) = some e) :
    u.Upgrade env stream = Outcome.ret
      ⟨st.hs,
       env.httpWriteResponseError e 400 (handshakeHeader.WriteTo ⟨u.Header, none⟩),
       some e, rest, st.calls⟩ :=
  Upgrade_of_firstMissing env u stream rl blank pre rest req st e hlines hreq hvalid hacc
    hblank hmiss

/-- C1, on a request that lacks both Host and Upgrade (and the version): it
is rejected with `ErrHandshakeBadHost`. -/
theorem Upgrade_missing_header_witness :
    Upgrader.zero.Upgrade specEnv
        (request ["GET /ws HTTP/1.1", "Sec-WebSocket-Key: dGhlIHNhbXBsZSBub25jZQ==",
          "Connection: Upgrade", "", "next"]) =
      Outcome.ret
        ⟨Handshake.zero, specWriteResponseError ErrHandshakeBadHost 400 [],
         some ErrHandshakeBadHost, [httphead.StrToBytes "next"], []⟩ :=
  Upgrade_missing_header specEnv Upgrader.zero
    (request ["GET /ws HTTP/1.1", "Sec-WebSocket-Key: dGhlIHNhbXBsZSBub25jZQ==",
      "Connection: Upgrade", "", "next"])
    (httphead.StrToBytes "GET /ws HTTP/1.1") (httphead.StrToBytes "")
    [httphead.StrToBytes "Sec-WebSocket-Key: dGhlIHNhbXBsZSBub25jZQ==",
      httphead.StrToBytes "Connection: Upgrade"]
    [httphead.StrToBytes "next"]
    ⟨httphead.StrToBytes "GET", httphead.StrToBytes "/ws", 1, 1⟩
    ⟨none, 20, httphead.StrToBytes "dGhlIHNhbXBsZSBub25jZQ==", Handshake.zero, []⟩
    ErrHandshakeBadHost rfl rfl ⟨rfl, by decide, rfl, by simp [Upgrader.zero]⟩ rfl rfl rfl

/-! ## C2 -/

/-- C2: the three early returns of `Upgrade` return an error with no response
bytes: when the request line cannot be read (line 311), when it does not parse
(line 316), and when a header line cannot be read (line 366). -/
theorem Upgrade_error_without_response (env : Env) (u : Upgrader) (stream : InputStream) :
    (stream.lines = [] →
      u.Upgrade env stream =
        Outcome.ret ⟨Handshake.zero, [], some stream.readErr, [], []⟩) ∧
    (∀ rl lines e, stream.lines = rl :: lines →
      env.httpParseRequestLine rl = Except.error e →
      u.Upgrade env stream = Outcome.ret ⟨Handshake.zero, [], some e, lines, []⟩) ∧
    (∀ rl pre req st, stream.lines = rl :: pre →
      env.httpParseRequestLine rl = Except.ok req → validRequest u req →
      acceptLines env u pre (loopStart u req) = some st →
      u.Upgrade env stream = Outcome.ret ⟨st.hs, [], some stream.readErr, [], st.calls⟩) := by
  refine ⟨?_, ?_, ?_⟩
  · intro h
    simp [Upgrader.Upgrade, h]
  · intro rl lines e h he
    simp [Upgrader.Upgrade, h, he]
  · intro rl pre req st h hreq hvalid hacc
    rw [Upgrade_of_request env u stream rl pre req h hreq,
      headerLoop_exhausted env u _ pre _ st hacc (loopStart_of_valid u req hvalid).1]

/-- C2, on three inputs: an empty stream, a first line that is not a request
line, and a request whose blank line has not arrived. Each time the error
comes with no response bytes. -/
theorem Upgrade_error_without_response_witness :
    Upgrader.zero.Upgrade specEnv (request []) =
      Outcome.ret ⟨Handshake.zero, [], some (Error.other "EOF"), [], []⟩ ∧
    Upgrader.zero.Upgrade specEnv (request ["GARBAGE", "Host: a", ""]) =
      Outcome.ret ⟨Handshake.zero, [], some ErrMalformedRequest,
        [httphead.StrToBytes "Host: a", httphead.StrToBytes ""], []⟩ ∧
    Upgrader.zero.Upgrade specEnv (request ["GET /ws HTTP/1.1", "Host: a"]) =
      Outcome.ret ⟨Handshake.zero, [], some (Error.other "EOF"), [], []⟩ :=
  ⟨(Upgrade_error_without_response specEnv Upgrader.zero (request [])).1 rfl,
   (Upgrade_error_without_response specEnv Upgrader.zero
      (request ["GARBAGE", "Host: a", ""])).2.1
      (httphead.StrToBytes "GARBAGE") [httphead.StrToBytes "Host: a", httphead.StrToBytes ""]
      ErrMalformedRequest rfl rfl,
   (Upgrade_error_without_response specEnv Upgrader.zero
      (request ["GET /ws HTTP/1.1", "Host: a"])).2.2
      (httphead.StrToBytes "GET /ws HTTP/1.1") [httphead.StrToBytes "Host: a"]
      ⟨httphead.StrToBytes "GET", httphead.StrToBytes "/ws", 1, 1⟩
      ⟨none, 1, List.replicate nonceSize 0, Handshake.zero, []⟩
      rfl rfl ⟨rfl, by decide, rfl, by simp [Upgrader.zero]⟩ rfl⟩

/-! ## C3 -/

/-- C3: on a connection that has not upgraded, when `Upgrade` returns an
error, `OnReceive` returns that error with no bytes: the response `Upgrade`
rendered (`r.out`) is dropped (lines 38-40), and the connection stays
not upgraded. -/
theorem OnReceive_drops_rejection (env : Env) (h : NetHandler) (addr : String)
    (stream : InputStream) (r : UpgradeReturn) (e : Error)
    (hup : h.IsUpgrade addr ≠ some true)
    (hr : Upgrader.zero.Upgrade env stream = Outcome.ret r)
    (herr : r.err = some e) :
    h.OnReceive env addr stream =
      Outcome.ret ⟨[], some e, h.IsUpgrade, { stream with lines := r.rest }⟩ := by
  unfold NetHandler.OnReceive
  split
  · rename_i ht
    exact absurd ht hup
  · simp [hr, herr]

/-- C3, on a request without a Host header: `Upgrade` renders a 400 response
that is not empty, and `OnReceive` returns no bytes. -/
theorem OnReceive_drops_rejection_witness :
    (freshHandler OpCode.OpText).OnReceive specEnv "10.0.0.1:5000"
        (request ["GET /ws HTTP/1.1", "Connection: Upgrade", ""]) =
      Outcome.ret ⟨[], some ErrHandshakeBadHost, (freshHandler OpCode.OpText).IsUpgrade,
        request []⟩ ∧
    Upgrader.zero.Upgrade specEnv (request ["GET /ws HTTP/1.1", "Connection: Upgrade", ""]) =
      Outcome.ret ⟨Handshake.zero,
        httphead.StrToBytes "HTTP/1.1 400\r\n\r\nhandshake error: bad \"Host\" header",
        some ErrHandshakeBadHost, [], []⟩ :=
  ⟨OnReceive_drops_rejection specEnv (freshHandler OpCode.OpText) "10.0.0.1:5000"
      (request ["GET /ws HTTP/1.1", "Connection: Upgrade", ""])
      ⟨Handshake.zero, specWriteResponseError ErrHandshakeBadHost 400 [],
        some ErrHandshakeBadHost, [], []⟩
      ErrHandshakeBadHost (by decide) (by decide) rfl,
   by decide⟩

/-! ## C4 -/

/-- C4: for every parsed request line, `Upgrade` rejects with
`ErrHandshakeBadProtocol` (status 505) whenever `major != 1` or `minor < 1`,
whatever the method, and with `ErrHandshakeBadMethod` (status 405) whenever
the version is acceptable and the method is not "GET"; in both cases every
line after the request line is left unread, no hook is called, and the
response is rendered with that status. -/
theorem Upgrade_rejects_request_line (env : Env) (u : Upgrader) (stream : InputStream)
    (rl : Bytes) (lines : List Bytes) (req : httpRequestLine)
    (hlines : stream.lines = rl :: lines)
    (hreq : env.httpParseRequestLine rl = Except.ok req) :
    ((req.major ≠ 1 ∨ req.minor < 1) →
      u.Upgrade env stream = Outcome.ret
        ⟨Handshake.zero,
         env.httpWriteResponseError ErrHandshakeBadProtocol 505
           (handshakeHeader.WriteTo ⟨u.Header, none⟩),
         some ErrHandshakeBadProtocol, lines, []⟩) ∧
    (req.major = 1 → 1 ≤ req.minor → req.method ≠ httphead.StrToBytes "GET" →
      u.Upgrade env stream = Outcome.ret
        ⟨Handshake.zero,
         env.httpWriteResponseError ErrHandshakeBadMethod 405
           (handshakeHeader.WriteTo ⟨u.Header, none⟩),
         some ErrHandshakeBadMethod, lines, []⟩) := by
  constructor
  · intro hv
    have hst : (loopStart u req).err = some ErrHandshakeBadProtocol := by
      simp [loopStart, requestCase, hv]
    rw [Upgrade_of_request env u stream rl lines req hlines hreq,
      headerLoop_of_err env u _ lines _ _ hst]
    simp only [finish_of_err env u _ lines _ hst]
    simp [loopStart, requestCase, hv]
    rfl
  · intro h1 h2 hm
    have hv : ¬ (req.major ≠ 1 ∨ req.minor < 1) := by omega
    have hm2 : req.method ≠ httphead.StrToBytes MethodGet := hm
    have hst : (loopStart u req).err = some ErrHandshakeBadMethod := by
      simp [loopStart, requestCase, hv, hm2]
    rw [Upgrade_of_request env u stream rl lines req hlines hreq,
      headerLoop_of_err env u _ lines _ _ hst]
    simp only [finish_of_err env u _ lines _ hst]
    simp [loopStart, requestCase, hv, hm2]
    rfl

/-- C4, on two requests: `GET /ws HTTP/1.0` is answered 505 and
`POST /ws HTTP/1.1` is answered 405, the header lines staying unread. -/
theorem Upgrade_rejects_request_line_witness :
    Upgrader.zero.Upgrade specEnv (request ["GET /ws HTTP/1.0", "Host: a", ""]) =
      Outcome.ret
        ⟨Handshake.zero,
         specEnv.httpWriteResponseError ErrHandshakeBadProtocol 505
           (handshakeHeader.WriteTo ⟨Upgrader.zero.Header, none⟩),
         some ErrHandshakeBadProtocol,
         [httphead.StrToBytes "Host: a", httphead.StrToBytes ""], []⟩ ∧
    Upgrader.zero.Upgrade specEnv (request ["POST /ws HTTP/1.1", "Host: a", ""]) =
      Outcome.ret
        ⟨Handshake.zero,
         specEnv.httpWriteResponseError ErrHandshakeBadMethod 405
           (handshakeHeader.WriteTo ⟨Upgrader.zero.Header, none⟩),
         some ErrHandshakeBadMethod,
         [httphead.StrToBytes "Host: a", httphead.StrToBytes ""], []⟩ :=
  ⟨(Upgrade_rejects_request_line specEnv Upgrader.zero
      (request ["GET /ws HTTP/1.0", "Host: a", ""]) (httphead.StrToBytes "GET /ws HTTP/1.0")
      [httphead.StrToBytes "Host: a", httphead.StrToBytes ""]
      ⟨httphead.StrToBytes "GET", httphead.StrToBytes "/ws", 1, 0⟩ rfl rfl).1
      (by decide),
   (Upgrade_rejects_request_line specEnv Upgrader.zero
      (request ["POST /ws HTTP/1.1", "Host: a", ""]) (httphead.StrToBytes "POST /ws HTTP/1.1")
      [httphead.StrToBytes "Host: a", httphead.StrToBytes ""]
      ⟨httphead.StrToBytes "POST", httphead.StrToBytes "/ws", 1, 1⟩ rfl rfl).2
      rfl (by decide) (by decide)⟩

/-! ## C5 -/

/-- C5: for a handshake with a valid request line in which a header line does
not parse as `name: value` and every earlier header line was accepted,
`Upgrade` stops reading at that line and rejects with `ErrMalformedRequest`
(status 400, reason "malformed HTTP request"), which is none of the
missing-header errors, whichever required headers were seen. -/
theorem Upgrade_malformed_header (env : Env) (u : Upgrader) (stream : InputStream)
    (rl line : Bytes) (pre rest : List Bytes) (req : httpRequestLine) (st : LoopState)
    (hlines : stream.lines = rl :: (pre ++ line :: rest))
    (hreq : env.httpParseRequestLine rl = Except.ok req)
    (hvalid : validRequest u req)
    (hacc : acceptLines env u pre (loopStart u req) = some st)
    (hnb : httphead.Trim line ≠ [])
    (hp : env.httpParseHeaderLine line = none) :
    u.Upgrade env stream = Outcome.ret
      ⟨st.hs,
       env.httpWriteResponseError ErrMalformedRequest 400
         (handshakeHeader.WriteTo ⟨u.Header, none⟩),
       some ErrMalformedRequest, rest, st.calls⟩ ∧
    errorText ErrMalformedRequest = "malformed HTTP request" ∧
    ErrMalformedRequest ∉ [ErrHandshakeBadHost, ErrHandshakeBadUpgrade,
      ErrHandshakeBadConnection, ErrHandshakeBadSecVersion, ErrHandshakeBadSecKey] := by
  refine ⟨?_, rfl, by decide⟩
  rw [Upgrade_stops_at_unparsed env u stream rl line pre rest req st hlines hreq hvalid hacc
    hnb hp]
  rfl

/-- C5, on a request whose second header line has no colon and that has no
Host header: the rejection is `ErrMalformedRequest` and the lines after the
malformed one stay unread. -/
theorem Upgrade_malformed_header_witness :
    Upgrader.zero.Upgrade specEnv
        (request ["GET /ws HTTP/1.1", "Connection: Upgrade", "no colon here", "Host: a", ""]) =
      Outcome.ret
        ⟨Handshake.zero, specWriteResponseError ErrMalformedRequest 400 [],
         some ErrMalformedRequest,
         [httphead.StrToBytes "Host: a", httphead.StrToBytes ""], []⟩ :=
  (Upgrade_malformed_header specEnv Upgrader.zero
    (request ["GET /ws HTTP/1.1", "Connection: Upgrade", "no colon here", "Host: a", ""])
    (httphead.StrToBytes "GET /ws HTTP/1.1") (httphead.StrToBytes "no colon here")
    [httphead.StrToBytes "Connection: Upgrade"]
    [httphead.StrToBytes "Host: a", httphead.StrToBytes ""]
    ⟨httphead.StrToBytes "GET", httphead.StrToBytes "/ws", 1, 1⟩
    ⟨none, 4, List.replicate nonceSize 0, Handshake.zero, []⟩
    rfl rfl ⟨rfl, by decide, rfl, by simp [Upgrader.zero]⟩ rfl (by decide) rfl).1

/-! ## C6 -/

/-- C6, as stated, fails: the 24-byte value `!!!!!!!!!!!!!!!!!!!!!!!!` is not
base64 and `AAAAAAAAAAAAAAAAAAAAAAA=` decodes to 17 bytes, yet `secKeyCase`
raises no error on either, and a handshake carrying the first is upgraded. -/
theorem secKey_not_decoded :
    decodesToNonce (httphead.StrToBytes "!!!!!!!!!!!!!!!!!!!!!!!!") = false ∧
    (secKeyCase ⟨none, 15, List.replicate nonceSize 0, Handshake.zero, []⟩
      (httphead.StrToBytes "!!!!!!!!!!!!!!!!!!!!!!!!")).err = none ∧
    base64Decode (httphead.StrToBytes "AAAAAAAAAAAAAAAAAAAAAAA=") =
      some (List.replicate 17 0) ∧
    (secKeyCase ⟨none, 15, List.replicate nonceSize 0, Handshake.zero, []⟩
      (httphead.StrToBytes "AAAAAAAAAAAAAAAAAAAAAAA=")).err = none ∧
    Upgrader.zero.Upgrade specEnv
        (request ["GET /ws HTTP/1.1", "Host: a", "Upgrade: websocket", "Connection: Upgrade",
          "Sec-WebSocket-Version: 13", "Sec-WebSocket-Key: !!!!!!!!!!!!!!!!!!!!!!!!", ""]) =
      Outcome.ret
        ⟨Handshake.zero,
         specEnv.httpWriteResponseUpgrade (httphead.StrToBytes "!!!!!!!!!!!!!!!!!!!!!!!!")
           Handshake.zero [],
         none, [], []⟩ := by
  decide

/-- C6, amended: in a handshake with a valid request line whose earlier header
lines are accepted, a `Sec-WebSocket-Key` line with value `v` is accepted
(raises no error) if and only if `v` is exactly 24 bytes long; a value of
another length makes `Upgrade` reject with `ErrHandshakeBadSecKey` (status
400). The value is not decoded; every value that base64-decodes to 16 bytes is
24 bytes long, hence accepted. -/
theorem Upgrade_key_length (env : Env) (u : Upgrader) (stream : InputStream)
    (rl line : Bytes) (pre rest : List Bytes) (req : httpRequestLine) (st : LoopState)
    (v : Bytes)
    (hlines : stream.lines = rl :: (pre ++ line :: rest))
    (hreq : env.httpParseRequestLine rl = Except.ok req)
    (hvalid : validRequest u req)
    (hacc : acceptLines env u pre (loopStart u req) = some st)
    (hnb : httphead.Trim line ≠ [])
    (hp : env.httpParseHeaderLine line = some (httphead.StrToBytes headerSecKey, v)) :
    ((headerCase env u st (httphead.StrToBytes headerSecKey) v).err = none ↔
      v.length = 24) ∧
    (v.length ≠ 24 →
      u.Upgrade env stream = Outcome.ret
        ⟨st.hs,
         env.httpWriteResponseError ErrHandshakeBadSecKey 400
           (handshakeHeader.WriteTo ⟨u.Header, none⟩),
         some ErrHandshakeBadSecKey, rest, st.calls⟩) ∧
    (decodesToNonce v = true →
      (headerCase env u st (httphead.StrToBytes headerSecKey) v).err = none) := by
  have he : st.err = none :=
    acceptLines_err env u pre _ _ hacc (loopStart_of_valid u req hvalid).1
  have hiff : (headerCase env u st (httphead.StrToBytes headerSecKey) v).err = none ↔
      v.length = 24 := by
    rw [headerCase_secKey, secKeyCase_err]
    by_cases h : v.length = nonceSize
    · rw [if_pos h]; exact ⟨fun _ => h, fun _ => he⟩
    · rw [if_neg h]; exact ⟨fun h2 => (by cases h2), fun h2 => absurd h2 h⟩
  refine ⟨hiff, ?_, fun hd => hiff.2 (length_of_decodesToNonce v hd)⟩
  intro hv
  have herr : (headerCase env u st (httphead.StrToBytes headerSecKey) v).err =
      some ErrHandshakeBadSecKey := by
    rw [headerCase_secKey, secKeyCase_err]
    exact if_neg hv
  rw [Upgrade_stops_at env u stream rl line pre rest req st _ v _ hlines hreq hvalid hacc
    hnb hp herr, headerCase_secKey, (secKeyCase_hs_calls st v).1,
    (secKeyCase_hs_calls st v).2]
  rfl

/-- C6 amended, on two requests: a key of 4 bytes is rejected with
`ErrHandshakeBadSecKey`; the key `dGhlIHNhbXBsZSBub25jZQ==`, which decodes to
16 bytes, raises no error. -/
theorem Upgrade_key_length_witness :
    Upgrader.zero.Upgrade specEnv
        (request ["GET /ws HTTP/1.1", "Host: a", "Sec-WebSocket-Key: abcd", "x: y", ""]) =
      Outcome.ret
        ⟨Handshake.zero, specWriteResponseError ErrHandshakeBadSecKey 400 [],
         some ErrHandshakeBadSecKey,
         [httphead.StrToBytes "x: y", httphead.StrToBytes ""], []⟩ ∧
    (headerCase specEnv Upgrader.zero
        ⟨none, 1, List.replicate nonceSize 0, Handshake.zero, []⟩
        (httphead.StrToBytes headerSecKey)
        (httphead.StrToBytes "dGhlIHNhbXBsZSBub25jZQ==")).err = none :=
  ⟨(Upgrade_key_length specEnv Upgrader.zero
      (request ["GET /ws HTTP/1.1", "Host: a", "Sec-WebSocket-Key: abcd", "x: y", ""])
      (httphead.StrToBytes "GET /ws HTTP/1.1") (httphead.StrToBytes "Sec-WebSocket-Key: abcd")
      [httphead.StrToBytes "Host: a"]
      [httphead.StrToBytes "x: y", httphead.StrToBytes ""]
      ⟨httphead.StrToBytes "GET", httphead.StrToBytes "/ws", 1, 1⟩
      ⟨none, 1, List.replicate nonceSize 0, Handshake.zero, []⟩
      (httphead.StrToBytes "abcd")
      rfl rfl ⟨rfl, by decide, rfl, by simp [Upgrader.zero]⟩ rfl (by decide) rfl).2.1
      (by decide),
   (Upgrade_key_length specEnv Upgrader.zero
      (request ["GET /ws HTTP/1.1", "Host: a",
        "Sec-WebSocket-Key: dGhlIHNhbXBsZSBub25jZQ==", ""])
      (httphead.StrToBytes "GET /ws HTTP/1.1")
      (httphead.StrToBytes "Sec-WebSocket-Key: dGhlIHNhbXBsZSBub25jZQ==")
      [httphead.StrToBytes "Host: a"]
      [httphead.StrToBytes ""]
      ⟨httphead.StrToBytes "GET", httphead.StrToBytes "/ws", 1, 1⟩
      ⟨none, 1, List.replicate nonceSize 0, Handshake.zero, []⟩
      (httphead.StrToBytes "dGhlIHNhbXBsZSBub25jZQ==")
      rfl rfl ⟨rfl, by decide, rfl, by simp [Upgrader.zero]⟩ rfl (by decide) rfl).2.2
      (by decide)⟩

/-! ## C7 -/

/-- C7: in a handshake with a valid request line whose other header lines are
accepted, a `Sec-WebSocket-Version` line with a value other than "13" is
rejected with `ErrHandshakeUpgradeRequired`, rendered with status 426 and the
extra header `Sec-WebSocket-Version: 13`; when the header is absent (Host,
Upgrade and Connection being present) the rejection is
`ErrHandshakeBadSecVersion`, rendered with status 400 and no header of its
own. The two statuses differ. -/
theorem Upgrade_version (env : Env) (u : Upgrader) (stream : InputStream)
    (rl : Bytes) (pre rest : List Bytes) (req : httpRequestLine) (st : LoopState)
    (hreq : env.httpParseRequestLine rl = Except.ok req)
    (hvalid : validRequest u req)
    (hacc : acceptLines env u pre (loopStart u req) = some st) :
    (∀ line v, stream.lines = rl :: (pre ++ line :: rest) → httphead.Trim line ≠ [] →
      env.httpParseHeaderLine line = some (httphead.StrToBytes headerSecVersion, v) →
      v ≠ httphead.StrToBytes "13" →
      u.Upgrade env stream = Outcome.ret
        ⟨st.hs,
         env.httpWriteResponseError ErrHandshakeUpgradeRequired 426
           (handshakeHeader.WriteTo
             ⟨u.Header, some (httphead.StrToBytes "Sec-WebSocket-Version: 13\r\n")⟩),
         some ErrHandshakeUpgradeRequired, rest, st.calls⟩) ∧
    (∀ blank, stream.lines = rl :: (pre ++ blank :: rest) → httphead.Trim blank = [] →
      hasHeader env pre headerHost = true → hasHeader env pre headerUpgrade = true →
      hasHeader env pre headerConnection = true →
      hasHeader env pre headerSecVersion = false →
      u.Upgrade env stream = Outcome.ret
        ⟨st.hs,
         env.httpWriteResponseError ErrHandshakeBadSecVersion 400
           (handshakeHeader.WriteTo ⟨u.Header, none⟩),
         some ErrHandshakeBadSecVersion, rest, st.calls⟩) ∧
    responseCode ErrHandshakeUpgradeRequired ≠ responseCode ErrHandshakeBadSecVersion := by
  refine ⟨?_, ?_, by decide⟩
  · intro line v hlines hnb hp hv
    have herr : (headerCase env u st (httphead.StrToBytes headerSecVersion) v).err =
        some ErrHandshakeUpgradeRequired := by
      rw [headerCase_secVersion, secVersionCase_err]
      exact if_neg hv
    rw [Upgrade_stops_at env u stream rl line pre rest req st _ v _ hlines hreq hvalid hacc
      hnb hp herr, headerCase_secVersion, (secVersionCase_hs_calls st v).1,
      (secVersionCase_hs_calls st v).2]
    rfl
  · intro blank hlines hblank h1 h2 h3 h4
    exact Upgrade_of_firstMissing env u stream rl blank pre rest req st _ hlines hreq hvalid
      hacc hblank (by simp [firstMissing, h1, h2, h3, h4])

/-- C7, on two requests that differ in the version header only: the value
"12" is answered 426 with the header `Sec-WebSocket-Version: 13`, the absent
header is answered 400. -/
theorem Upgrade_version_witness :
    Upgrader.zero.Upgrade specEnv
        (request ["GET /ws HTTP/1.1", "Host: a", "Upgrade: websocket", "Connection: Upgrade",
          "Sec-WebSocket-Version: 12", "Sec-WebSocket-Key: dGhlIHNhbXBsZSBub25jZQ==", ""]) =
      Outcome.ret
        ⟨Handshake.zero,
         specWriteResponseError ErrHandshakeUpgradeRequired 426
           (httphead.StrToBytes "Sec-WebSocket-Version: 13\r\n"),
         some ErrHandshakeUpgradeRequired,
         [httphead.StrToBytes "Sec-WebSocket-Key: dGhlIHNhbXBsZSBub25jZQ==",
           httphead.StrToBytes ""], []⟩ ∧
    Upgrader.zero.Upgrade specEnv
        (request ["GET /ws HTTP/1.1", "Host: a", "Upgrade: websocket", "Connection: Upgrade",
          ""]) =
      Outcome.ret
        ⟨Handshake.zero, specWriteResponseError ErrHandshakeBadSecVersion 400 [],
         some ErrHandshakeBadSecVersion, [], []⟩ :=
  ⟨(Upgrade_version specEnv Upgrader.zero
      (request ["GET /ws HTTP/1.1", "Host: a", "Upgrade: websocket", "Connection: Upgrade",
        "Sec-WebSocket-Version: 12", "Sec-WebSocket-Key: dGhlIHNhbXBsZSBub25jZQ==", ""])
      (httphead.StrToBytes "GET /ws HTTP/1.1")
      [httphead.StrToBytes "Host: a", httphead.StrToBytes "Upgrade: websocket",
        httphead.StrToBytes "Connection: Upgrade"]
      [httphead.StrToBytes "Sec-WebSocket-Key: dGhlIHNhbXBsZSBub25jZQ==",
        httphead.StrToBytes ""]
      ⟨httphead.StrToBytes "GET", httphead.StrToBytes "/ws", 1, 1⟩
      ⟨none, 7, List.replicate nonceSize 0, Handshake.zero, []⟩
      rfl ⟨rfl, by decide, rfl, by simp [Upgrader.zero]⟩ rfl).1
      (httphead.StrToBytes "Sec-WebSocket-Version: 12") (httphead.StrToBytes "12")
      rfl (by decide) rfl (by decide),
   (Upgrade_version specEnv Upgrader.zero
      (request ["GET /ws HTTP/1.1", "Host: a", "Upgrade: websocket", "Connection: Upgrade",
        ""])
      (httphead.StrToBytes "GET /ws HTTP/1.1")
      [httphead.StrToBytes "Host: a", httphead.StrToBytes "Upgrade: websocket",
        httphead.StrToBytes "Connection: Upgrade"]
      []
      ⟨httphead.StrToBytes "GET", httphead.StrToBytes "/ws", 1, 1⟩
      ⟨none, 7, List.replicate nonceSize 0, Handshake.zero, []⟩
      rfl ⟨rfl, by decide, rfl, by simp [Upgrader.zero]⟩ rfl).2.1
      (httphead.StrToBytes "") rfl rfl rfl rfl rfl rfl⟩

/-! ## C8 -/

/-- C8: in a handshake with a valid request line whose earlier header lines
are accepted, a `Connection` line with value `v` is accepted (raises no error)
if and only if `v` is byte for byte "Upgrade"; any other value, "upgrade" and
"keep-alive, Upgrade" included, makes `Upgrade` reject with
`ErrHandshakeBadConnection`, rendered with status 400. An `Upgrade` line with
value `w` is accepted if and only if `w` equals "websocket" or
`bytes.EqualFold` holds of them; for an ASCII `w` that is: `w` lower-cased is
"websocket". -/
theorem Upgrade_connection_exact (env : Env) (u : Upgrader) (stream : InputStream)
    (rl line : Bytes) (pre rest : List Bytes) (req : httpRequestLine) (st : LoopState)
    (v : Bytes)
    (hlines : stream.lines = rl :: (pre ++ line :: rest))
    (hreq : env.httpParseRequestLine rl = Except.ok req)
    (hvalid : validRequest u req)
    (hacc : acceptLines env u pre (loopStart u req) = some st)
    (hnb : httphead.Trim line ≠ [])
    (hp : env.httpParseHeaderLine line = some (httphead.StrToBytes headerConnection, v)) :
    ((headerCase env u st (httphead.StrToBytes headerConnection) v).err = none ↔
      v = httphead.StrToBytes "Upgrade") ∧
    (v ≠ httphead.StrToBytes "Upgrade" →
      u.Upgrade env stream = Outcome.ret
        ⟨st.hs,
         env.httpWriteResponseError ErrHandshakeBadConnection 400
           (handshakeHeader.WriteTo ⟨u.Header, none⟩),
         some ErrHandshakeBadConnection, rest, st.calls⟩) ∧
    httphead.StrToBytes "upgrade" ≠ httphead.StrToBytes "Upgrade" ∧
    httphead.StrToBytes "keep-alive, Upgrade" ≠ httphead.StrToBytes "Upgrade" ∧
    (∀ w, (headerCase env u st (httphead.StrToBytes headerUpgrade) w).err = none ↔
      (w = httphead.StrToBytes "websocket" ∨
        EqualFold env.unicodeFold w (httphead.StrToBytes "websocket") = true)) ∧
    (∀ w, (∀ b ∈ w, b < 128) →
      ((headerCase env u st (httphead.StrToBytes headerUpgrade) w).err = none ↔
        w.map lowerByte = httphead.StrToBytes "websocket")) := by
  have he : st.err = none :=
    acceptLines_err env u pre _ _ hacc (loopStart_of_valid u req hvalid).1
  have hU : ∀ w, (headerCase env u st (httphead.StrToBytes headerUpgrade) w).err = none ↔
      (w = httphead.StrToBytes "websocket" ∨
        EqualFold env.unicodeFold w (httphead.StrToBytes "websocket") = true) := by
    intro w
    rw [headerCase_upgrade, upgradeCase_err]
    by_cases h : w = specHeaderValueUpgrade ∨
        EqualFold env.unicodeFold w specHeaderValueUpgrade = true
    · rw [if_pos h]; exact ⟨fun _ => h, fun _ => he⟩
    · rw [if_neg h]; exact ⟨fun h2 => (by cases h2), fun h2 => absurd h2 h⟩
  refine ⟨?_, ?_, by decide, by decide, hU, ?_⟩
  · rw [headerCase_connection, connectionCase_err]
    by_cases h : v = specHeaderValueConnection
    · rw [if_pos h]; exact ⟨fun _ => h, fun _ => he⟩
    · rw [if_neg h]; exact ⟨fun h2 => (by cases h2), fun h2 => absurd h2 h⟩
  · intro hv
    have herr : (headerCase env u st (httphead.StrToBytes headerConnection) v).err =
        some ErrHandshakeBadConnection := by
      rw [headerCase_connection, connectionCase_err]
      exact if_neg hv
    rw [Upgrade_stops_at env u stream rl line pre rest req st _ v _ hlines hreq hvalid hacc
      hnb hp herr, headerCase_connection, (connectionCase_hs_calls st v).1,
      (connectionCase_hs_calls st v).2]
    rfl
  · intro w hw
    rw [hU w]
    have hfold := EqualFold_ascii env.unicodeFold w (httphead.StrToBytes "websocket") hw
      (by decide)
    constructor
    · rintro (h | h)
      · subst h; decide
      · exact hfold.1 h
    · intro h
      exact Or.inr (hfold.2 h)

/-- C8, on a request whose Connection value is the token list
"keep-alive, Upgrade": it is rejected with `ErrHandshakeBadConnection`, after
its `Upgrade: WebSocket` line was accepted. -/
theorem Upgrade_connection_exact_witness :
    Upgrader.zero.Upgrade specEnv
        (request ["GET /ws HTTP/1.1", "Host: a", "Upgrade: WebSocket",
          "Connection: keep-alive, Upgrade", "Sec-WebSocket-Version: 13", ""]) =
      Outcome.ret
        ⟨Handshake.zero, specWriteResponseError ErrHandshakeBadConnection 400 [],
         some ErrHandshakeBadConnection,
         [httphead.StrToBytes "Sec-WebSocket-Version: 13", httphead.StrToBytes ""], []⟩ ∧
    (headerCase specEnv Upgrader.zero
        ⟨none, 3, List.replicate nonceSize 0, Handshake.zero, []⟩
        (httphead.StrToBytes headerUpgrade) (httphead.StrToBytes "WebSocket")).err = none :=
  ⟨(Upgrade_connection_exact specEnv Upgrader.zero
      (request ["GET /ws HTTP/1.1", "Host: a", "Upgrade: WebSocket",
        "Connection: keep-alive, Upgrade", "Sec-WebSocket-Version: 13", ""])
      (httphead.StrToBytes "GET /ws HTTP/1.1")
      (httphead.StrToBytes "Connection: keep-alive, Upgrade")
      [httphead.StrToBytes "Host: a", httphead.StrToBytes "Upgrade: WebSocket"]
      [httphead.StrToBytes "Sec-WebSocket-Version: 13", httphead.StrToBytes ""]
      ⟨httphead.StrToBytes "GET", httphead.StrToBytes "/ws", 1, 1⟩
      ⟨none, 3, List.replicate nonceSize 0, Handshake.zero, []⟩
      (httphead.StrToBytes "keep-alive, Upgrade")
      rfl rfl ⟨rfl, by decide, rfl, by simp [Upgrader.zero]⟩ rfl (by decide) rfl).2.1
      (by decide),
   ((Upgrade_connection_exact specEnv Upgrader.zero
      (request ["GET /ws HTTP/1.1", "Host: a", "Upgrade: WebSocket",
        "Connection: keep-alive, Upgrade", "Sec-WebSocket-Version: 13", ""])
      (httphead.StrToBytes "GET /ws HTTP/1.1")
      (httphead.StrToBytes "Connection: keep-alive, Upgrade")
      [httphead.StrToBytes "Host: a", httphead.StrToBytes "Upgrade: WebSocket"]
      [httphead.StrToBytes "Sec-WebSocket-Version: 13", httphead.StrToBytes ""]
      ⟨httphead.StrToBytes "GET", httphead.StrToBytes "/ws", 1, 1⟩
      ⟨none, 3, List.replicate nonceSize 0, Handshake.zero, []⟩
      (httphead.StrToBytes "keep-alive, Upgrade")
      rfl rfl ⟨rfl, by decide, rfl, by simp [Upgrader.zero]⟩ rfl (by decide) rfl).2.2.2.2.2
      (httphead.StrToBytes "WebSocket") (by decide)).2 (by decide)⟩

/-! ## C9 -/

/-- C9: the switch at lines 73-84 maps a Text, Binary or Close reply to the
constructor of the same name, but a Ping reply to `NewPongFrame` and a Pong
reply to `NewPingFrame`: a reply intended as a Pong is encoded with the Ping
opcode and the other way round. On the echo handler replying with `OpPing`,
`OnReceive` returns a frame whose first byte, 138, carries opcode 10 (Pong). -/
theorem replyFrame_crosses_ping_pong (p : Bytes) :
    replyFrame OpCode.OpText p = NewTextFrame p ∧
    replyFrame OpCode.OpBinary p = NewBinaryFrame p ∧
    replyFrame OpCode.OpClose p = NewCloseFrame p ∧
    replyFrame OpCode.OpPing p = NewPongFrame p ∧
    replyFrame OpCode.OpPong p = NewPingFrame p ∧
    (replyFrame OpCode.OpPing p).Header.OpCode = OpCode.OpPong ∧
    (replyFrame OpCode.OpPong p).Header.OpCode = OpCode.OpPing ∧
    (upgradedHandler "10.0.0.1:5000" OpCode.OpPing).OnReceive specEnv "10.0.0.1:5000"
        (frameStream (textHeader 2) [104, 105]) =
      Outcome.ret ⟨[138, 2, 104, 105], none,
        (upgradedHandler "10.0.0.1:5000" OpCode.OpPing).IsUpgrade,
        { frameStream (textHeader 2) [104, 105] with returned := some [] }⟩ := by
  exact ⟨rfl, rfl, rfl, rfl, rfl, rfl, rfl, rfl⟩

/-! ## C10 -/

theorem replyFrame_header (op : OpCode) (p : Bytes)
    (hop : op ∈ [OpCode.OpText, OpCode.OpBinary, OpCode.OpPing, OpCode.OpPong,
      OpCode.OpClose]) :
    (replyFrame op p).Header.Fin = true ∧ (replyFrame op p).Header.Masked = false ∧
    (replyFrame op p).Header.Length = (p.length : Int) ∧ (replyFrame op p).Payload = p ∧
    ((replyFrame op p).Header.OpCode = OpCode.OpClose ↔ op = OpCode.OpClose) := by
  cases op <;> simp at hop <;> simp [replyFrame, NewTextFrame, NewBinaryFrame, NewPingFrame,
    NewPongFrame, NewCloseFrame, NewFrame]

/-- C10, as stated, fails for a Close reply: the frame is built and encoded
(its header encodes to `[136, 2]`), but `OnReceive` returns no bytes
(lines 97-99). -/
theorem OnReceive_close_reply_empty :
    (upgradedHandler "10.0.0.1:5000" OpCode.OpClose).OnReceive specEnv "10.0.0.1:5000"
        (frameStream (textHeader 2) [104, 105]) =
      Outcome.ret ⟨[], none,
        (upgradedHandler "10.0.0.1:5000" OpCode.OpClose).IsUpgrade,
        { frameStream (textHeader 2) [104, 105] with returned := some [] }⟩ ∧
    specEnv.WriteHeader (replyFrame OpCode.OpClose [104, 105]).Header =
      Except.ok [136, 2] :=
  ⟨rfl, rfl⟩

/-- C10, amended: on an upgraded connection, when the header was read, the
payload was taken and the handler replied `(p, op)` with `op` among Text,
Binary, Ping, Pong, Close, the frame built has `Masked = false`,
`Length = len(p)` and payload `p`; if `WriteHeader` encodes its header as
`hb`, then `OnReceive` returns exactly `hb` followed by `p` when `op` is not
Close, and no bytes (and no error) when `op` is Close. -/
theorem OnReceive_reply_bytes (env : Env) (h : NetHandler) (addr : String)
    (stream : InputStream) (header : Header) (payload returned p hb : Bytes) (op : OpCode)
    (hup : h.IsUpgrade addr = some true)
    (hhdr : stream.header = Except.ok header)
    (htake : takePayload header stream.borrowed = Outcome.ret (payload, returned))
    (hrec : h.EasyWsHandler.OnReceive payload = (p, op, none))
    (hop : op ∈ [OpCode.OpText, OpCode.OpBinary, OpCode.OpPing, OpCode.OpPong,
      OpCode.OpClose])
    (hw : env.WriteHeader (replyFrame op p).Header = Except.ok hb) :
    (replyFrame op p).Header.Masked = false ∧
    (replyFrame op p).Header.Length = (p.length : Int) ∧
    (replyFrame op p).Payload = p ∧
    h.OnReceive env addr stream =
      Outcome.ret ⟨if op = OpCode.OpClose then [] else hb ++ p, none, h.IsUpgrade,
        { stream with returned := some returned }⟩ := by
  obtain ⟨_, hm, hl, hpay, hclose⟩ := replyFrame_header op p hop
  refine ⟨hm, hl, hpay, ?_⟩
  have hreply : reply env h payload =
      (if op = OpCode.OpClose then [] else hb ++ p, none) := by
    unfold reply
    simp only [hrec, hw, hpay, copyInto_header_payload]
    by_cases hc : op = OpCode.OpClose
    · rw [if_pos (hclose.2 hc), if_pos hc]
    · rw [if_neg (fun h2 => hc (hclose.1 h2)), if_neg hc]
  unfold NetHandler.OnReceive
  simp only [hup, hhdr, htake, hreply]

/-- C10 amended, on the echo handler of the example: the text frame "hi" is
answered with the header bytes `[129, 2]` followed by "hi". -/
theorem OnReceive_reply_bytes_witness :
    (upgradedHandler "10.0.0.1:5000" OpCode.OpText).OnReceive specEnv "10.0.0.1:5000"
        (frameStream (textHeader 2) [104, 105, 7]) =
      Outcome.ret ⟨[129, 2, 104, 105], none,
        (upgradedHandler "10.0.0.1:5000" OpCode.OpText).IsUpgrade,
        { frameStream (textHeader 2) [104, 105, 7] with returned := some [7] }⟩ :=
  (OnReceive_reply_bytes specEnv (upgradedHandler "10.0.0.1:5000" OpCode.OpText)
    "10.0.0.1:5000" (frameStream (textHeader 2) [104, 105, 7]) (textHeader 2)
    [104, 105] [7] [104, 105] [129, 2] OpCode.OpText
    (by decide) rfl rfl rfl (by decide) rfl).2.2.2

/-! ## C11 -/

theorem copy_replicate_take (n : Nat) (l : Bytes) (h : n ≤ l.length) :
    copy (List.replicate n 0) (l.take n) = l.take n := by
  simp [copy, List.length_take, Nat.min_eq_left h]

/-- C11: the payload extraction of `OnReceive` (lines 54-65), case by case.
When `0 <= L <= len(d)` the payload is `d[0..L)`, unmasked with
`Cipher(payload, mask, 0)` if the header is masked, and `d[L..)` is handed
back. But no error is ever reported for missing bytes: a negative `L` panics
in `make`, an `L` above `cap(d)` panics in `d[:L]` (and so does `OnReceive`),
and for `len(d) < L <= cap(d)` the payload is filled from the backing array
beyond the length of `d` and nothing is handed back. -/
theorem takePayload_cases (header : Header) (data : Slice) :
    (0 ≤ header.Length → header.Length ≤ (data.len : Int) →
      takePayload header data = Outcome.ret
        (if header.Masked then Cipher (data.elems.take header.Length.toNat) header.Mask 0
          else data.elems.take header.Length.toNat,
         data.elems.drop header.Length.toNat)) ∧
    (header.Length < 0 →
      takePayload header data = Outcome.panic "makeslice: len out of range") ∧
    ((data.cap : Int) < header.Length →
      takePayload header data = Outcome.panic "slice bounds out of range" ∧
      ∀ (env : Env) (h : NetHandler) (addr : String) (stream : InputStream),
        h.IsUpgrade addr = some true → stream.header = Except.ok header →
        stream.borrowed = data →
        h.OnReceive env addr stream = Outcome.panic "slice bounds out of range") ∧
    ((data.len : Int) < header.Length → header.Length ≤ (data.cap : Int) →
      takePayload header data = Outcome.ret
        (if header.Masked then
            Cipher (data.elems ++ data.spare.take (header.Length.toNat - data.len))
              header.Mask 0
          else data.elems ++ data.spare.take (header.Length.toNat - data.len),
         [])) := by
  refine ⟨?_, ?_, ?_, ?_⟩
  · intro h0 hle
    have hn : header.Length.toNat ≤ data.elems.length := by
      simp only [Slice.len] at hle; omega
    have hcap : ¬ data.cap < header.Length.toNat := by
      simp only [Slice.cap]; omega
    have htake : (data.elems ++ data.spare).take header.Length.toNat =
        data.elems.take header.Length.toNat := by
      rw [List.take_append_of_le_length hn]
    have hcopy := copy_replicate_take header.Length.toNat (data.elems ++ data.spare)
      (by simp only [List.length_append]; omega)
    rw [htake] at hcopy
    unfold takePayload
    rw [if_neg (by omega), if_neg hcap]
    simp only [htake, hcopy]
    by_cases hgt : (data.len : Int) > header.Length
    · rw [if_pos hgt]
    · rw [if_neg hgt]
      have : data.elems.length ≤ header.Length.toNat := by
        simp only [Slice.len] at hgt; omega
      rw [List.drop_of_length_le this]
  · intro hneg
    unfold takePayload
    rw [if_pos hneg]
  · intro hcap
    have h0 : ¬ header.Length < 0 := by
      have : (0 : Int) ≤ (data.cap : Int) := Int.ofNat_nonneg _
      omega
    have hc : data.cap < header.Length.toNat := by omega
    have ht : takePayload header data = Outcome.panic "slice bounds out of range" := by
      unfold takePayload
      rw [if_neg h0, if_pos hc]
    refine ⟨ht, ?_⟩
    intro env h addr stream hup hhdr hdata
    unfold NetHandler.OnReceive
    simp only [hup, hhdr, hdata, ht]
  · intro hlt hle
    have h0 : ¬ header.Length < 0 := by
      have : (0 : Int) ≤ (data.len : Int) := Int.ofNat_nonneg _
      omega
    have hcap : ¬ data.cap < header.Length.toNat := by omega
    have hlen : data.elems.length ≤ header.Length.toNat := by
      simp only [Slice.len] at hlt; omega
    have htake : (data.elems ++ data.spare).take header.Length.toNat =
        data.elems ++ data.spare.take (header.Length.toNat - data.len) := by
      rw [List.take_append_eq_append_take, List.take_of_length_le hlen]
      rfl
    have hcopy := copy_replicate_take header.Length.toNat (data.elems ++ data.spare)
      (by simp only [Slice.cap] at hcap; simp only [List.length_append]; omega)
    rw [htake] at hcopy
    have hng : ¬ ((data.len : Int) > header.Length) := by omega
    unfold takePayload
    rw [if_neg h0, if_neg hcap]
    simp only [htake, hcopy, if_neg hng]

/-- C11, on concrete frames: a complete payload is taken and the rest handed
back, a masked one is unmasked; a frame announcing 5 bytes of which 2 have
arrived makes `OnReceive` panic, a negative length panics, and with spare
capacity the missing byte is read from beyond the borrowed bytes. -/
theorem takePayload_cases_witness :
    takePayload (textHeader 2) ⟨[104, 105, 7], []⟩ = Outcome.ret ([104, 105], [7]) ∧
    takePayload (maskedHeader (1, 2, 3, 4) 2) ⟨[104, 105], []⟩ =
      Outcome.ret ([105, 107], []) ∧
    takePayload (textHeader (-1)) ⟨[104, 105], []⟩ =
      Outcome.panic "makeslice: len out of range" ∧
    (upgradedHandler "10.0.0.1:5000" OpCode.OpText).OnReceive specEnv "10.0.0.1:5000"
        (frameStream (textHeader 5) [104, 105]) =
      Outcome.panic "slice bounds out of range" ∧
    takePayload (textHeader 2) ⟨[104], [9, 9]⟩ = Outcome.ret ([104, 9], []) :=
  ⟨(takePayload_cases (textHeader 2) ⟨[104, 105, 7], []⟩).1 (by decide) (by decide),
   (takePayload_cases (maskedHeader (1, 2, 3, 4) 2) ⟨[104, 105], []⟩).1
      (by decide) (by decide),
   (takePayload_cases (textHeader (-1)) ⟨[104, 105], []⟩).2.1 (by decide),
   ((takePayload_cases (textHeader 5) ⟨[104, 105], []⟩).2.2.1 (by decide)).2 specEnv
      (upgradedHandler "10.0.0.1:5000" OpCode.OpText) "10.0.0.1:5000"
      (frameStream (textHeader 5) [104, 105]) (by decide) rfl rfl,
   (takePayload_cases (textHeader 2) ⟨[104], [9, 9]⟩).2.2.2 (by decide) (by decide)⟩

/-! ## C12 -/

theorem headerLoop_seen_lt (env : Env) (u : Upgrader) (readErr : Error) (lines : List Bytes) :
    ∀ st, st.headerSeen < 32 →
      (headerLoop env u readErr lines st).state.headerSeen < 32 := by
  induction lines with
  | nil =>
    intro st h
    unfold headerLoop
    split <;> exact h
  | cons line rest ih =>
    intro st h
    unfold headerLoop
    split
    · exact h
    · split
      · exact h
      · split
        · exact h
        · rename_i k v _
          apply ih
          rw [headerCase_headerSeen]
          exact (seen_or_and st.headerSeen h (seenBit k) (seenBit_mem k) 1 (by decide)).1

theorem clear_bit_of_lt :
    ∀ s, s < 32 → s ≠ 31 →
      s &&& 1 = 0 ∨ s &&& 2 = 0 ∨ s &&& 4 = 0 ∨ s &&& 8 = 0 ∨ s &&& 16 = 0 := by
  decide

theorem and_all_of_lt : ∀ s, s < 32 → s &&& 31 = s := by
  decide

theorem finish_returns (env : Env) (u : Upgrader) (st : LoopState) (rest : List Bytes)
    (h : st.headerSeen < 32) : ∃ r, finish env u st rest = Outcome.ret r := by
  cases he : st.err with
  | some e => exact ⟨_, finish_of_err env u st rest e he⟩
  | none =>
    by_cases hall : st.headerSeen = headerSeenAll
    · cases hb : u.OnBeforeUpgrade with
      | none => exact ⟨_, by simp [finish, he, hall, hb]; rfl⟩
      | some f =>
        cases hf : f.2 with
        | none => exact ⟨_, by simp [finish, he, hall, hb, hf]; rfl⟩
        | some e => exact ⟨_, by simp [finish, he, hall, hb, hf]; rfl⟩
    · obtain ⟨f1, f2, f3, f4, f5⟩ := finish_missing env u st rest he
      by_cases b1 : st.headerSeen &&& headerSeenHost = 0
      · exact ⟨_, f1 b1⟩
      by_cases b2 : st.headerSeen &&& headerSeenUpgrade = 0
      · exact ⟨_, f2 b1 b2⟩
      by_cases b3 : st.headerSeen &&& headerSeenConnection = 0
      · exact ⟨_, f3 b1 b2 b3⟩
      by_cases b4 : st.headerSeen &&& headerSeenSecVersion = 0
      · exact ⟨_, f4 b1 b2 b3 b4⟩
      by_cases b5 : st.headerSeen &&& headerSeenSecKey = 0
      · exact ⟨_, f5 b1 b2 b3 b4 b5⟩
      exfalso
      rcases clear_bit_of_lt st.headerSeen h hall with c | c | c | c | c
      · exact b1 c
      · exact b2 c
      · exact b3 c
      · exact b4 c
      · exact b5 c

theorem Upgrade_returns (env : Env) (u : Upgrader) (stream : InputStream) :
    ∃ r, u.Upgrade env stream = Outcome.ret r := by
  cases hl : stream.lines with
  | nil => exact ⟨_, by simp [Upgrader.Upgrade, hl]; rfl⟩
  | cons rl lines =>
    cases hreq : env.httpParseRequestLine rl with
    | error e => exact ⟨_, by simp [Upgrader.Upgrade, hl, hreq]; rfl⟩
    | ok req =>
      rw [Upgrade_of_request env u stream rl lines req hl hreq]
      have hlt := headerLoop_seen_lt env u stream.readErr lines (loopStart u req)
        (by show (0 : Nat) < 32; decide)
      cases hx : headerLoop env u stream.readErr lines (loopStart u req) with
      | readFailed st e => exact ⟨_, rfl⟩
      | done st rest =>
        rw [hx] at hlt
        exact finish_returns env u st rest hlt

theorem finish_takes_missing_case (env : Env) (u : Upgrader) (st : LoopState)
    (rest : List Bytes) (h : st.headerSeen < 32) (he : st.err = none)
    (hall : st.headerSeen ≠ headerSeenAll) :
    ∃ e ∈ [ErrHandshakeBadHost, ErrHandshakeBadUpgrade, ErrHandshakeBadConnection,
        ErrHandshakeBadSecVersion, ErrHandshakeBadSecKey],
      finish env u st rest = Outcome.ret ⟨st.hs, rendered env u e, some e, rest, st.calls⟩ := by
  obtain ⟨f1, f2, f3, f4, f5⟩ := finish_missing env u st rest he
  by_cases b1 : st.headerSeen &&& headerSeenHost = 0
  · exact ⟨_, by simp, f1 b1⟩
  by_cases b2 : st.headerSeen &&& headerSeenUpgrade = 0
  · exact ⟨_, by simp, f2 b1 b2⟩
  by_cases b3 : st.headerSeen &&& headerSeenConnection = 0
  · exact ⟨_, by simp, f3 b1 b2 b3⟩
  by_cases b4 : st.headerSeen &&& headerSeenSecVersion = 0
  · exact ⟨_, by simp, f4 b1 b2 b3 b4⟩
  by_cases b5 : st.headerSeen &&& headerSeenSecKey = 0
  · exact ⟨_, by simp, f5 b1 b2 b3 b4 b5⟩
  exfalso
  rcases clear_bit_of_lt st.headerSeen h hall with c | c | c | c | c
  · exact b1 c
  · exact b2 c
  · exact b3 c
  · exact b4 c
  · exact b5 c

theorem lt_of_and_all (s : Nat) (h : s &&& headerSeenAll = s) : s < 32 := by
  have h2 : s &&& headerSeenAll ≤ headerSeenAll := Nat.and_le_right
  rw [h] at h2
  have h3 : headerSeenAll = 31 := by decide
  omega

/-- C12: `Upgrade` never panics: on every input it returns. The loop only
ever ORs the five `headerSeen*` flags into `headerSeen`, so at the end of the
loop `headerSeen` has no bit outside `headerSeenAll`; such a value that
differs from `headerSeenAll` has one of the five flags clear, and the tail of
`Upgrade` then takes one of the five missing-header cases, never the
`panic("unknown headers state")` branch. -/
theorem Upgrade_panic_unreachable (env : Env) (u : Upgrader) (stream : InputStream) :
    (∃ r, u.Upgrade env stream = Outcome.ret r) ∧
    (∀ msg, u.Upgrade env stream ≠ Outcome.panic msg) ∧
    (∀ readErr lines req,
      (headerLoop env u readErr lines (loopStart u req)).state.headerSeen &&& headerSeenAll =
        (headerLoop env u readErr lines (loopStart u req)).state.headerSeen) ∧
    (∀ s : Nat, s &&& headerSeenAll = s → s ≠ headerSeenAll →
      s &&& headerSeenHost = 0 ∨ s &&& headerSeenUpgrade = 0 ∨
      s &&& headerSeenConnection = 0 ∨ s &&& headerSeenSecVersion = 0 ∨
      s &&& headerSeenSecKey = 0) ∧
    (∀ (st : LoopState) (rest : List Bytes),
      st.headerSeen &&& headerSeenAll = st.headerSeen → st.err = none →
      st.headerSeen ≠ headerSeenAll →
      ∃ e ∈ [ErrHandshakeBadHost, ErrHandshakeBadUpgrade, ErrHandshakeBadConnection,
          ErrHandshakeBadSecVersion, ErrHandshakeBadSecKey],
        finish env u st rest =
          Outcome.ret ⟨st.hs, rendered env u e, some e, rest, st.calls⟩) := by
  refine ⟨Upgrade_returns env u stream, ?_, ?_, ?_, ?_⟩
  · intro msg hp
    obtain ⟨r, hr⟩ := Upgrade_returns env u stream
    rw [hr] at hp
    cases hp
  · intro readErr lines req
    exact and_all_of_lt _ (headerLoop_seen_lt env u readErr lines (loopStart u req)
      (by show (0 : Nat) < 32; decide))
  · intro s hs hne
    exact clear_bit_of_lt s (lt_of_and_all s hs) hne
  · intro st rest hs he hne
    exact finish_takes_missing_case env u st rest (lt_of_and_all _ hs) he hne

/-- C12, on a state in which only Connection and the key were seen
(`headerSeen = 20`): the Host flag is clear and the tail of `Upgrade` takes a
missing-header case. -/
theorem Upgrade_panic_unreachable_witness :
    (20 &&& headerSeenHost = 0 ∨ 20 &&& headerSeenUpgrade = 0 ∨
      20 &&& headerSeenConnection = 0 ∨ 20 &&& headerSeenSecVersion = 0 ∨
      20 &&& headerSeenSecKey = 0) ∧
    ∃ e ∈ [ErrHandshakeBadHost, ErrHandshakeBadUpgrade, ErrHandshakeBadConnection,
        ErrHandshakeBadSecVersion, ErrHandshakeBadSecKey],
      finish specEnv Upgrader.zero
          ⟨none, 20, List.replicate nonceSize 0, Handshake.zero, []⟩ [] =
        Outcome.ret ⟨Handshake.zero, rendered specEnv Upgrader.zero e, some e, [], []⟩ :=
  ⟨(Upgrade_panic_unreachable specEnv Upgrader.zero (request [])).2.2.2.1 20
      (by decide) (by decide),
   (Upgrade_panic_unreachable specEnv Upgrader.zero (request [])).2.2.2.2
      ⟨none, 20, List.replicate nonceSize 0, Handshake.zero, []⟩ []
      (by decide) rfl (by decide)⟩

/-! ## C13 -/

theorem hostCase_calls (u : Upgrader) (st : LoopState) (v : Bytes)
    (h : Call.OnBeforeUpgrade ∉ st.calls) : Call.OnBeforeUpgrade ∉ (hostCase u st v).calls := by
  unfold hostCase
  cases u.OnHost <;> simp [h]

theorem secProtocolCase_calls (env : Env) (u : Upgrader) (st : LoopState) (v : Bytes)
    (h : Call.OnBeforeUpgrade ∉ st.calls) :
    Call.OnBeforeUpgrade ∉ (secProtocolCase env u st v).calls := by
  unfold secProtocolCase
  split
  · split
    · dsimp only; split <;> simp [h]
    · dsimp only; split <;> simp [h]
    · exact h
  · exact h

theorem secExtensionsCase_calls (env : Env) (u : Upgrader) (st : LoopState) (v : Bytes)
    (h : Call.OnBeforeUpgrade ∉ st.calls) :
    Call.OnBeforeUpgrade ∉ (secExtensionsCase env u st v).calls := by
  unfold secExtensionsCase
  have h0 : (match st.err, u.Negotiate with
      | none, some f =>
        ({ st with hs := { st.hs with Extensions := (env.negotiateExtensions v st.hs.Extensions f).1 },
                   err := (env.negotiateExtensions v st.hs.Extensions f).2 } : LoopState)
      | _, _ => st).calls = st.calls := by
    split <;> rfl
  dsimp only
  split
  · split
    · split <;> simp [h0, h]
    · split <;> simp [h0, h]
    · rw [h0]; exact h
  · rw [h0]; exact h

theorem defaultCase_calls (u : Upgrader) (st : LoopState) (k v : Bytes)
    (h : Call.OnBeforeUpgrade ∉ st.calls) :
    Call.OnBeforeUpgrade ∉ (defaultCase u st k v).calls := by
  unfold defaultCase
  cases u.OnHeader <;> simp [h]

theorem headerCase_calls (env : Env) (u : Upgrader) (st : LoopState) (k v : Bytes)
    (h : Call.OnBeforeUpgrade ∉ st.calls) :
    Call.OnBeforeUpgrade ∉ (headerCase env u st k v).calls := by
  unfold headerCase
  split_ifs
  · exact hostCase_calls u st v h
  · rw [(upgradeCase_hs_calls env st v).2]; exact h
  · rw [(connectionCase_hs_calls st v).2]; exact h
  · rw [(secVersionCase_hs_calls st v).2]; exact h
  · rw [(secKeyCase_hs_calls st v).2]; exact h
  · exact secProtocolCase_calls env u st v h
  · exact secExtensionsCase_calls env u st v h
  · exact defaultCase_calls u st k v h

theorem loopStart_calls (u : Upgrader) (req : httpRequestLine) :
    Call.OnBeforeUpgrade ∉ (loopStart u req).calls := by
  unfold loopStart requestCase
  split_ifs
  · simp
  · simp
  · cases u.OnRequest <;> simp

theorem acceptLines_calls (env : Env) (u : Upgrader) (pre : List Bytes) :
    ∀ st st1, acceptLines env u pre st = some st1 → Call.OnBeforeUpgrade ∉ st.calls →
      Call.OnBeforeUpgrade ∉ st1.calls := by
  induction pre with
  | nil => intro st st1 h hc; simp [acceptLines] at h; subst h; exact hc
  | cons line rest ih =>
    intro st st1 h hc
    unfold acceptLines at h
    split at h
    · cases h
    · split at h
      · cases h
      · split at h
        · cases h
        · exact ih _ _ h (headerCase_calls env u st _ _ hc)

/-- C13: in a handshake with a valid request line whose earlier header lines
`pre` are accepted, the first line that raises an error decides the
rejection. If the line parses as `k: v` and `headerCase` sets the error `e` (a
bad Upgrade, Connection, Version or Key value, a malformed protocol or
extensions value, or a hook error), or if it does not parse
(`ErrMalformedRequest`), then `Upgrade` returns exactly that error, leaves
every later line unread, does not call `OnBeforeUpgrade`, and renders the
response with the status of the error: its own code, or 500 when the error is
not a `ConnectionRejectedError` or has code 0. Which required headers are
missing plays no part. -/
theorem Upgrade_first_error_decides (env : Env) (u : Upgrader) (stream : InputStream)
    (rl line : Bytes) (pre rest : List Bytes) (req : httpRequestLine) (st : LoopState)
    (hlines : stream.lines = rl :: (pre ++ line :: rest))
    (hreq : env.httpParseRequestLine rl = Except.ok req)
    (hvalid : validRequest u req)
    (hacc : acceptLines env u pre (loopStart u req) = some st)
    (hnb : httphead.Trim line ≠ []) :
    (∀ k v e, env.httpParseHeaderLine line = some (k, v) →
      (headerCase env u st k v).err = some e →
      u.Upgrade env stream = Outcome.ret
        ⟨(headerCase env u st k v).hs,
         env.httpWriteResponseError e (responseCode e) (rejectionHeader u e).WriteTo,
         some e, rest, (headerCase env u st k v).calls⟩ ∧
      Call.OnBeforeUpgrade ∉ (headerCase env u st k v).calls) ∧
    (env.httpParseHeaderLine line = none →
      u.Upgrade env stream = Outcome.ret
        ⟨st.hs,
         env.httpWriteResponseError ErrMalformedRequest 400
           (handshakeHeader.WriteTo ⟨u.Header, none⟩),
         some ErrMalformedRequest, rest, st.calls⟩ ∧
      Call.OnBeforeUpgrade ∉ st.calls) ∧
    (∀ msg, responseCode (Error.other msg) = 500 ∧
      rejectionHeader u (Error.other msg) = ⟨u.Header, none⟩) ∧
    (∀ rej : ConnectionRejectedError,
      rejectionHeader u (Error.rejected rej) = ⟨u.Header, rej.header⟩ ∧
      (rej.code = 0 → responseCode (Error.rejected rej) = 500) ∧
      (rej.code ≠ 0 → responseCode (Error.rejected rej) = rej.code)) := by
  have hc : Call.OnBeforeUpgrade ∉ st.calls :=
    acceptLines_calls env u pre _ _ hacc (loopStart_calls u req)
  refine ⟨?_, ?_, fun msg => ⟨rfl, rfl⟩, fun rej => ⟨rfl, ?_, ?_⟩⟩
  · intro k v e hp herr
    exact ⟨Upgrade_stops_at env u stream rl line pre rest req st k v e hlines hreq hvalid
      hacc hnb hp herr, headerCase_calls env u st k v hc⟩
  · intro hp
    refine ⟨?_, hc⟩
    rw [Upgrade_stops_at_unparsed env u stream rl line pre rest req st hlines hreq hvalid hacc
      hnb hp]
    rfl
  · intro h0
    simp [responseCode, h0, StatusInternalServerError]
  · intro h0
    simp [responseCode, h0]

/-- C13, on an upgrader that has an `OnBeforeUpgrade` hook: a request with a
bad Connection value and no Host header is rejected with
`ErrHandshakeBadConnection`, not `ErrHandshakeBadHost`; a Host line refused by
the hook with a plain error is answered 500; an unparsable line is answered
with `ErrMalformedRequest`; in each case the later lines stay unread and the
log has no `OnBeforeUpgrade` call. A rejection with code 0 is rendered with
500. -/
theorem Upgrade_first_error_decides_witness :
    guardedUpgrader.Upgrade specEnv
        (request ["GET /ws HTTP/1.1", "Upgrade: websocket", "Connection: close",
          "Sec-WebSocket-Version: 13", ""]) =
      Outcome.ret
        ⟨Handshake.zero, specWriteResponseError ErrHandshakeBadConnection 400 [],
         some ErrHandshakeBadConnection,
         [httphead.StrToBytes "Sec-WebSocket-Version: 13", httphead.StrToBytes ""], []⟩ ∧
    guardedUpgrader.Upgrade specEnv
        (request ["GET /ws HTTP/1.1", "Host: evil", "Upgrade: websocket", ""]) =
      Outcome.ret
        ⟨Handshake.zero, specWriteResponseError (Error.other "denied") 500 [],
         some (Error.other "denied"),
         [httphead.StrToBytes "Upgrade: websocket", httphead.StrToBytes ""],
         [Call.OnHost (httphead.StrToBytes "evil")]⟩ ∧
    guardedUpgrader.Upgrade specEnv (request ["GET /ws HTTP/1.1", "junk", "Host: a", ""]) =
      Outcome.ret
        ⟨Handshake.zero, specWriteResponseError ErrMalformedRequest 400 [],
         some ErrMalformedRequest,
         [httphead.StrToBytes "Host: a", httphead.StrToBytes ""], []⟩ ∧
    responseCode (Error.rejected ⟨"no", 0, none⟩) = 500 :=
  ⟨((Upgrade_first_error_decides specEnv guardedUpgrader
      (request ["GET /ws HTTP/1.1", "Upgrade: websocket", "Connection: close",
        "Sec-WebSocket-Version: 13", ""])
      (httphead.StrToBytes "GET /ws HTTP/1.1") (httphead.StrToBytes "Connection: close")
      [httphead.StrToBytes "Upgrade: websocket"]
      [httphead.StrToBytes "Sec-WebSocket-Version: 13", httphead.StrToBytes ""]
      ⟨httphead.StrToBytes "GET", httphead.StrToBytes "/ws", 1, 1⟩
      ⟨none, 2, List.replicate nonceSize 0, Handshake.zero, []⟩
      rfl rfl ⟨rfl, by decide, rfl, by simp [guardedUpgrader, Upgrader.zero]⟩ rfl
      (by decide)).1
      (httphead.StrToBytes "Connection") (httphead.StrToBytes "close")
      ErrHandshakeBadConnection rfl rfl).1,
   ((Upgrade_first_error_decides specEnv guardedUpgrader
      (request ["GET /ws HTTP/1.1", "Host: evil", "Upgrade: websocket", ""])
      (httphead.StrToBytes "GET /ws HTTP/1.1") (httphead.StrToBytes "Host: evil")
      []
      [httphead.StrToBytes "Upgrade: websocket", httphead.StrToBytes ""]
      ⟨httphead.StrToBytes "GET", httphead.StrToBytes "/ws", 1, 1⟩
      ⟨none, 0, List.replicate nonceSize 0, Handshake.zero, []⟩
      rfl rfl ⟨rfl, by decide, rfl, by simp [guardedUpgrader, Upgrader.zero]⟩ rfl
      (by decide)).1
      (httphead.StrToBytes "Host") (httphead.StrToBytes "evil")
      (Error.other "denied") rfl rfl).1,
   ((Upgrade_first_error_decides specEnv guardedUpgrader
      (request ["GET /ws HTTP/1.1", "junk", "Host: a", ""])
      (httphead.StrToBytes "GET /ws HTTP/1.1") (httphead.StrToBytes "junk")
      []
      [httphead.StrToBytes "Host: a", httphead.StrToBytes ""]
      ⟨httphead.StrToBytes "GET", httphead.StrToBytes "/ws", 1, 1⟩
      ⟨none, 0, List.replicate nonceSize 0, Handshake.zero, []⟩
      rfl rfl ⟨rfl, by decide, rfl, by simp [guardedUpgrader, Upgrader.zero]⟩ rfl
      (by decide)).2.1 rfl).1,
   ((Upgrade_first_error_decides specEnv guardedUpgrader
      (request ["GET /ws HTTP/1.1", "junk", "Host: a", ""])
      (httphead.StrToBytes "GET /ws HTTP/1.1") (httphead.StrToBytes "junk")
      []
      [httphead.StrToBytes "Host: a", httphead.StrToBytes ""]
      ⟨httphead.StrToBytes "GET", httphead.StrToBytes "/ws", 1, 1⟩
      ⟨none, 0, List.replicate nonceSize 0, Handshake.zero, []⟩
      rfl rfl ⟨rfl, by decide, rfl, by simp [guardedUpgrader, Upgrader.zero]⟩ rfl
      (by decide)).2.2.2 ⟨"no", 0, none⟩).2.1 rfl⟩

end easyws
